import Mathlib

/-!
# ITKIsotropicWavelets: Riesz filter-bank generator, Simoncelli kernel and the
# structure-tensor test driver

A shallow embedding of

* `RieszFrequencyFilterBankGenerator::SetOrder` (itkRieszFrequencyFilterBankGenerator.h),
* the class documentation of `RieszFrequencyFilterBankGenerator` and
  `SimoncelliIsotropicWavelet`,
* the command-line entry point and the coefficient loop of
  itkStructureTensorWithGeneralizedRieszTest.cxx.

Unsigned machine integers are natural numbers; every statement below that is
proved for all naturals holds in particular for the 32-bit range.
-/

namespace itk

/-! ## Data model of the Riesz filter-bank generator -/

/-- Modelled from the spec: the evaluator class `RieszFrequencyFunction`
(itkRieszFrequencyFunction.h) is not among the sources.  The generator only
uses it as an object that stores an order (`SetOrder`) and that knows the
number of components of an order (`ComputeNumberOfComponents`, below). -/
structure RieszFrequencyFunction where
  m_Order : Nat
deriving DecidableEq, Repr

/-- Modelled from the spec: `RieszFrequencyFunction::SetOrder` stores the order
in the evaluator. -/
def RieszFrequencyFunction.SetOrder (e : RieszFrequencyFunction) (inputOrder : Nat) :
    RieszFrequencyFunction :=
  { e with m_Order := inputOrder }

/-- Modelled from the spec: `ComputeNumberOfComponents` of the evaluator, for
image dimension `d`: `M = (N+d-1)! / ((d-1)! * N!)` (section 3 of the spec and
the class documentation of the generator). -/
def RieszFrequencyFunction.ComputeNumberOfComponents (d order : Nat) : Nat :=
  (order + d - 1).factorial / ((d - 1).factorial * order.factorial)

/-- State of a `RieszFrequencyFilterBankGenerator`.  `m_Order` and
`m_Evaluator` are the two private members of the class; the other fields are
the part of the inherited `ProcessObject` state that `SetOrder` touches: the
number of required outputs, the array of indexed outputs (a slot holds the
identity of a data object, or is null), and the modification time stamp.
`m_NextObject` is the allocation counter that gives every object made by
`MakeOutput` a new identity. -/
structure RieszFrequencyFilterBankGenerator where
  m_Order : Nat
  m_Evaluator : RieszFrequencyFunction
  m_NumberOfRequiredOutputs : Nat
  m_Outputs : List (Option Nat)
  m_NextObject : Nat
  m_MTime : Nat
deriving DecidableEq, Repr

namespace RieszFrequencyFilterBankGenerator

/-- The base-class `Modified()`: the time stamp moves forward. -/
def Modified (g : RieszFrequencyFilterBankGenerator) : RieszFrequencyFilterBankGenerator :=
  { g with m_MTime := g.m_MTime + 1 }

/-- The base-class setter of the number of required outputs (a set-macro: it
stores the value and marks the object modified when the value changes). -/
def SetNumberOfRequiredOutputs (g : RieszFrequencyFilterBankGenerator) (n : Nat) :
    RieszFrequencyFilterBankGenerator :=
  if g.m_NumberOfRequiredOutputs ≠ n then
    Modified { g with m_NumberOfRequiredOutputs := n }
  else g

/-- Getter of the number of required outputs. -/
def GetNumberOfRequiredOutputs (g : RieszFrequencyFilterBankGenerator) : Nat :=
  g.m_NumberOfRequiredOutputs

/-- The base-class `MakeOutput(idx)`: a newly allocated output image; its
identity is one no earlier object has. -/
def MakeOutput (g : RieszFrequencyFilterBankGenerator) (_idx : Nat) :
    Nat × RieszFrequencyFilterBankGenerator :=
  (g.m_NextObject, { g with m_NextObject := g.m_NextObject + 1 })

/-- The base-class `SetNthOutput(idx, obj)`: the array of indexed outputs grows
(with null slots) when `idx` is past its end, slot `idx` then holds `obj`, and
the object is marked modified. -/
def SetNthOutput (g : RieszFrequencyFilterBankGenerator) (idx : Nat) (obj : Nat) :
    RieszFrequencyFilterBankGenerator :=
  let outs :=
    if g.m_Outputs.length ≤ idx then
      g.m_Outputs ++ List.replicate (idx + 1 - g.m_Outputs.length) none
    else g.m_Outputs
  Modified { g with m_Outputs := outs.set idx (some obj) }

/-- One turn of the loop of `SetOrder`:
`this->SetNthOutput(comp, this->MakeOutput(comp))`. -/
def installOutput (g : RieszFrequencyFilterBankGenerator) (comp : Nat) :
    RieszFrequencyFilterBankGenerator :=
  let made := g.MakeOutput comp
  made.2.SetNthOutput comp made.1

/-- The method `SetOrder(inputOrder)` of the generator, lines 92-112 of the
header.  `numComponents` is the evaluator's `ComputeNumberOfComponents` (the
evaluator class is a template parameter).  The result pairs what the call
does (it returns, or it throws the exception with the given text) with the
state of the generator afterwards. -/
def SetOrder (numComponents : Nat → Nat) (g : RieszFrequencyFilterBankGenerator)
    (inputOrder : Nat) : Except String Unit × RieszFrequencyFilterBankGenerator :=
  if inputOrder < 1 then
    (Except.error ("Error: inputOrder = " ++ toString inputOrder ++
      ". It has to be greater than 0."), g)
  else if g.m_Order ≠ inputOrder then
    let g1 := { g with m_Order := inputOrder }
    let g2 := { g1 with m_Evaluator := g1.m_Evaluator.SetOrder inputOrder }
    let g3 := g2.SetNumberOfRequiredOutputs (numComponents inputOrder)
    let g4 := (List.range g3.GetNumberOfRequiredOutputs).foldl installOutput g3
    (Except.ok (), g4.Modified)
  else
    (Except.ok (), g)

/-- The generated getter `GetOrder()`. -/
def GetOrder (g : RieszFrequencyFilterBankGenerator) : Nat := g.m_Order

end RieszFrequencyFilterBankGenerator

end itk

namespace itk

/-! ## Riesz components: multi-indices and the transfer function -/

/-- Modelled from the spec: the multi-indices of the Riesz components of order
`N` in dimension `d` (section 4.3: all `α = (α₁,…,α_d)` with `α_i ≥ 0` and
`Σ α_i = N`, in lexicographic order by decreasing `α₁`, then `α₂`, …).  The
enumeration is part of `RieszFrequencyFunction`, which is not among the
sources. -/
def multiIndices : Nat → Nat → List (List Nat)
  | 0, 0 => [[]]
  | 0, _ + 1 => []
  | d + 1, N =>
    (List.range (N + 1)).flatMap fun j => (multiIndices d j).map fun α => (N - j) :: α

/-- A complex number `re + i·im` over an ordered field `K`. -/
structure Cplx (K : Type) where
  re : K
  im : K

namespace Cplx

variable {K : Type} [LinearOrderedField K]

/-- The complex number one. -/
def one : Cplx K := ⟨1, 0⟩

/-- Product of two complex numbers. -/
def mul (a b : Cplx K) : Cplx K := ⟨a.re * b.re - a.im * b.im, a.re * b.im + a.im * b.re⟩

/-- Power of a complex number with a natural exponent. -/
def npow (z : Cplx K) : Nat → Cplx K
  | 0 => one
  | n + 1 => mul (npow z n) z

/-- Product of a real and a complex number. -/
def smul (r : K) (z : Cplx K) : Cplx K := ⟨r * z.re, r * z.im⟩

/-- Squared magnitude of a complex number. -/
def normSq (z : Cplx K) : K := z.re ^ 2 + z.im ^ 2

end Cplx

section RieszFunction

variable {K : Type} [LinearOrderedField K]

/-- The squared length `|ω|²` of a frequency vector. -/
def squaredNorm (w : List K) : K := (w.map fun x => x ^ 2).sum

/-- Modelled from the spec: the product `Π_i (−i·ω_i/|ω|)^{α_i}` of section 4.3,
with `nrm` the length `|ω|`. -/
def rieszMonomial (nrm : K) : List Nat → List K → Cplx K
  | a :: α, x :: w => Cplx.mul (Cplx.npow ⟨0, -(x / nrm)⟩ a) (rieszMonomial nrm α w)
  | _, _ => Cplx.one

/-- Modelled from the spec: the multinomial coefficient `N! / (α₁!·α₂!·…·α_d!)`
of section 4.3, as an element of the field. -/
def multinomialCoefficient (N : Nat) (α : List Nat) : K :=
  (N.factorial : K) / (α.map fun a => (a.factorial : K)).prod

/-- Modelled from the spec: the generalized Riesz transfer function of
section 4.3 (`RieszFrequencyFunction` is not among the sources): component `α`
at the frequency vector `ω` is
`sqrt(N! / (α₁!·…·α_d!)) · Π_i (−i·ω_i/|ω|)^{α_i}`, and every component is `0`
at `ω = 0`.  The arithmetic is exact, in an ordered field `K` with a square
root function `sqrt`. -/
def RieszComponent (sqrt : K → K) (N : Nat) (α : List Nat) (w : List K) : Cplx K :=
  if w.all fun x => decide (x = 0) then ⟨0, 0⟩
  else Cplx.smul (sqrt (multinomialCoefficient N α)) (rieszMonomial (sqrt (squaredNorm w)) α w)

/-- The real monomial `Π_i u_i^{α_i}`. -/
def monomial : List Nat → List K → K
  | a :: α, x :: u => x ^ a * monomial α u
  | _, _ => 1

end RieszFunction

/-! ## The Simoncelli kernel -/

namespace SimoncelliIsotropicWavelet

variable {K : Type} [LinearOrderedField K]

/-- Division of floating-point code, which faults on a zero divisor. -/
def checkedDiv (a b : K) : Option K := if b = 0 then none else some (a / b)

/-- Modelled from the spec: `EvaluateMagnitude` is only declared in
itkSimoncelliIsotropicWavelet.h; its body (itkSimoncelliIsotropicWavelet.hxx)
is not among the sources.  This is the function of the class documentation,
`h(ω) = cos(π/2 · log2(2ω/π))` for `ω ∈ ]π/4, π]` and `0` otherwise, with `ω`
the frequency of that documentation.  The constant `π` and the library functions `cos`
and `log2` are parameters; `log2` has no value outside its domain, and the
result is `none` when a division or a logarithm faults. -/
def EvaluateMagnitude (pi : K) (cos : K → K) (log2 : K → Option K) (w : K) : Option K :=
  if pi / 4 < w ∧ w ≤ pi then
    match checkedDiv (2 * w) pi with
    | none => none
    | some q =>
      match log2 q with
      | none => none
      | some l => some (cos (pi / 2 * l))
  else some 0

end SimoncelliIsotropicWavelet

/-! ## The forward pyramid -/

section Pyramid

variable {Grid : Type}

/-- Modelled from the spec: the forward pyramid of section 4.4
(`WaveletFrequencyForward` is not among the sources).  At each of the levels
the current low-pass spectrum is multiplied by the `K` band-pass filters of the
level (these products are outputs) and by the low-pass filter of the level
(which, subsampled, is the input of the next level); after the last level the
remaining low-pass spectrum is the final output.  The filtering and the
subsampling are parameters.  `remaining` counts the levels still to do. -/
def ForwardPyramid (bandPass : Nat → Nat → Grid → Grid) (lowPass : Nat → Grid → Grid)
    (subsample : Grid → Grid) (K : Nat) : Nat → Nat → Grid → List Grid
  | 0, _, current => [current]
  | remaining + 1, level, current =>
    (List.range K).map (fun k => bandPass level k current) ++
      ForwardPyramid bandPass lowPass subsample K remaining (level + 1)
        (subsample (lowPass level current))

/-- The low-pass spectrum that is left after `remaining` more levels. -/
def residualLowPass (lowPass : Nat → Grid → Grid) (subsample : Grid → Grid) :
    Nat → Nat → Grid → Grid
  | 0, _, current => current
  | remaining + 1, level, current =>
    residualLowPass lowPass subsample remaining (level + 1) (subsample (lowPass level current))

end Pyramid

end itk

/-! ## The structure-tensor test: the coefficient loop -/

section StructureTensorTest

variable {Grid : Type}

/-- The body of the coefficient loop of `runStructureTensorWithGeneralizedRieszTest`
for a band that is not the last one (lines 125-185 of the test): a new Riesz
filter bank is given the order, and the band is replaced by the Fourier
transform of the largest-response projection of the structure tensor of its
Riesz components.  `newFilterBank` is the generator as `New()` and
`SetOutputParametersFromImage` leave it; `project` stands for the image
processing after `SetOrder` (the filter bank update, the multiplications, the
inverse transforms, the structure tensor, the forward transform).  The
exception of `SetOrder` leaves the function. -/
def rieszStructureTensorBand (numComponents : Nat → Nat)
    (newFilterBank : itk.RieszFrequencyFilterBankGenerator)
    (project : itk.RieszFrequencyFilterBankGenerator → Grid → Grid)
    (inputRieszOrder : Nat) (band : Grid) : Except String Grid :=
  match itk.RieszFrequencyFilterBankGenerator.SetOrder numComponents newFilterBank
      inputRieszOrder with
  | (Except.error e, _) => Except.error e
  | (Except.ok _, filterBank) => Except.ok (project filterBank band)

/-- The coefficient loop of `runStructureTensorWithGeneralizedRieszTest`
(lines 113-186 of the test) from index `i` on, over the outputs
`analysisWavelets[i], analysisWavelets[i+1], …` that are still to visit: the
output with index `numberOfOutputs - 1` is pushed as it is, every other one is
pushed after `step`.  The result is the part of `modifiedWavelets` that these
turns push. -/
def modifiedWaveletsFrom (step : Grid → Except String Grid) (numberOfOutputs : Nat) :
    Nat → List Grid → Except String (List Grid)
  | _, [] => Except.ok []
  | i, w :: rest =>
    if i = numberOfOutputs - 1 then
      match modifiedWaveletsFrom step numberOfOutputs (i + 1) rest with
      | Except.error e => Except.error e
      | Except.ok ms => Except.ok (w :: ms)
    else
      match step w with
      | Except.error e => Except.error e
      | Except.ok m =>
        match modifiedWaveletsFrom step numberOfOutputs (i + 1) rest with
        | Except.error e => Except.error e
        | Except.ok ms => Except.ok (m :: ms)

/-- The list `modifiedWavelets` that `runStructureTensorWithGeneralizedRieszTest`
hands to the inverse pyramid (`inverseWavelet->SetInputs( modifiedWavelets )`),
built from the outputs `analysisWavelets` of the forward pyramid, whose number
is `forwardWavelet->GetNumberOfOutputs()`. -/
def modifiedWavelets (step : Grid → Except String Grid) (analysisWavelets : List Grid) :
    Except String (List Grid) :=
  modifiedWaveletsFrom step analysisWavelets.length 0 analysisWavelets

end StructureTensorTest

/-! ## The structure-tensor test: the entry point -/

/-- The C library predicate `isspace`, in the C locale. -/
def isspace (c : Char) : Bool := c.toNat = 32 || (9 ≤ c.toNat && c.toNat ≤ 13)

/-- The C library predicate `isdigit`. -/
def isdigit (c : Char) : Bool := 48 ≤ c.toNat && c.toNat ≤ 57

/-- The digits that `strtol` reads, accumulated in base ten. -/
def atoiDigits : List Char → Nat → Nat
  | [], acc => acc
  | c :: cs, acc => if isdigit c then atoiDigits cs (10 * acc + (c.toNat - 48)) else acc

/-- The largest value of the C type `long` (64 bits). -/
def LONG_MAX : Int := 9223372036854775807

/-- The smallest value of the C type `long` (64 bits). -/
def LONG_MIN : Int := -9223372036854775808

/-- The C library function `strtol` in base ten, as `strtol( nptr, NULL, 10 )`:
leading white space is skipped, then an optional sign (`-` is character 45, `+`
is character 43) and the longest run of decimal digits are read; without digits
the value is `0`; a value beyond the range of `long` is replaced by `LONG_MAX`
or `LONG_MIN`. -/
def strtol (s : String) : Int :=
  let exact : Int :=
    match s.toList.dropWhile isspace with
    | [] => 0
    | c :: cs =>
      if c.toNat = 45 then -(atoiDigits cs 0 : Int)
      else if c.toNat = 43 then (atoiDigits cs 0 : Int)
      else (atoiDigits (c :: cs) 0 : Int)
  if LONG_MAX < exact then LONG_MAX
  else if exact < LONG_MIN then LONG_MIN
  else exact

/-- The C library function `atoi`, which is `(int) strtol( nptr, NULL, 10 )`:
the `long` value of `strtol` is converted to the 32-bit `int`, keeping its low
32 bits (two's complement). -/
def atoi (s : String) : Int :=
  (strtol s + 2147483648) % 4294967296 - 2147483648

/-- Conversion of an `int` to `unsigned int` (32 bits), as in
`const unsigned int inputLevels = atoi( argv[3] )`. -/
def toUnsigned (z : Int) : Nat := (z % 4294967296).toNat

/-- The four wavelet classes the test can be instantiated with. -/
inductive WaveletFunction where
  | Held
  | Vow
  | Simoncelli
  | Shannon
deriving DecidableEq, Repr

/-- The command-line name of a wavelet class. -/
def WaveletFunction.name : WaveletFunction → String
  | .Held => "Held"
  | .Vow => "Vow"
  | .Simoncelli => "Simoncelli"
  | .Shannon => "Shannon"

/-- A call `runStructureTensorWithGeneralizedRieszTest< VDimension,
TWaveletFunction >( inputImage, outputImage, inputLevels, inputBands,
inputRieszOrder, inputApplyReconstructionFactors )`: the two template arguments
and the six arguments. -/
structure RunCall where
  VDimension : Nat
  TWaveletFunction : WaveletFunction
  inputImage : String
  outputImage : String
  inputLevels : Nat
  inputBands : Nat
  inputRieszOrder : Nat
  inputApplyReconstructionFactors : Bool
deriving DecidableEq, Repr

/-- The exit code `EXIT_SUCCESS`. -/
def EXIT_SUCCESS : Int := 0

/-- The exit code `EXIT_FAILURE`. -/
def EXIT_FAILURE : Int := 1

/-- The entry point `itkStructureTensorWithGeneralizedRieszTest( argc, argv )`,
lines 236-338 of the test.  `argv` is the argument vector (`argv[0]` included)
and `argc` its length.  `run` is `runStructureTensorWithGeneralizedRieszTest`,
the only place where the image is read and the transforms run; its result, and
that of the entry point, is the exit code that is returned or the exception
that leaves the function. -/
def itkStructureTensorWithGeneralizedRieszTest (run : RunCall → Except String Int)
    (argv : List String) : Except String Int :=
  let argc := argv.length
  if argc < 8 ∨ argc > 9 then Except.ok EXIT_FAILURE
  else
    let inputImage := argv.getD 1 ""
    let outputImage := argv.getD 2 ""
    let inputLevels := toUnsigned (atoi (argv.getD 3 ""))
    let inputBands := toUnsigned (atoi (argv.getD 4 ""))
    let waveletFunction := argv.getD 5 ""
    let inputRieszOrder := toUnsigned (atoi (argv.getD 6 ""))
    let applyReconstructionFactorsInput := argv.getD 7 ""
    let parsedFlag : Option Bool :=
      if applyReconstructionFactorsInput = "Apply" then some true
      else if applyReconstructionFactorsInput = "NoApply" then some false
      else none
    match parsedFlag with
    | none => Except.ok EXIT_FAILURE
    | some applyReconstructionFactors =>
      let dimension := if argc = 9 then toUnsigned (atoi (argv.getD 8 "")) else 3
      if dimension = 2 then
        if waveletFunction = "Held" then
          run ⟨2, .Held, inputImage, outputImage, inputLevels, inputBands, inputRieszOrder,
            applyReconstructionFactors⟩
        else if waveletFunction = "Vow" then
          run ⟨2, .Vow, inputImage, outputImage, inputLevels, inputBands, inputRieszOrder,
            applyReconstructionFactors⟩
        else if waveletFunction = "Simoncelli" then
          run ⟨2, .Simoncelli, inputImage, outputImage, inputLevels, inputBands,
            inputRieszOrder, applyReconstructionFactors⟩
        else if waveletFunction = "Shannon" then
          run ⟨2, .Shannon, inputImage, outputImage, inputLevels, inputBands, inputRieszOrder,
            applyReconstructionFactors⟩
        else Except.ok EXIT_FAILURE
      else if dimension = 3 then
        if waveletFunction = "Held" then
          run ⟨3, .Held, inputImage, outputImage, inputLevels, inputBands, inputRieszOrder,
            applyReconstructionFactors⟩
        else if waveletFunction = "Vow" then
          run ⟨3, .Vow, inputImage, outputImage, inputLevels, inputBands, inputRieszOrder,
            applyReconstructionFactors⟩
        else if waveletFunction = "Simoncelli" then
          run ⟨3, .Simoncelli, inputImage, outputImage, inputLevels, inputBands,
            inputRieszOrder, applyReconstructionFactors⟩
        else if waveletFunction = "Shannon" then
          run ⟨3, .Shannon, inputImage, outputImage, inputLevels, inputBands, inputRieszOrder,
            applyReconstructionFactors⟩
        else Except.ok EXIT_FAILURE
      else Except.ok EXIT_FAILURE

/-- The dimension the entry point selects: `atoi( argv[8] )` when there are nine
arguments, and `3` otherwise. -/
def selectedDimension (argv : List String) : Nat :=
  if argv.length = 9 then toUnsigned (atoi (argv.getD 8 "")) else 3

/-! ## The structure-tensor test: the run -/

/-- The stages of `runStructureTensorWithGeneralizedRieszTest` whose code is
outside the sources, as parameters: `readSpectrum` is the reader, the
zero-DC filter and the forward Fourier transform (lines 67-82 of the test);
`bandPass`, `lowPass` and `subsample` are the filtering of the forward
pyramid; `newFilterBank` is the Riesz generator as `New()` and
`SetOutputParametersFromImage` leave it; `project` is the image processing of
a band after `SetOrder`; `inverse` is the inverse pyramid followed by the
inverse Fourier transform (lines 207-219).  They are taken as returning. -/
structure PipelineStages (Grid : Type) where
  readSpectrum : String → Grid
  bandPass : Nat → Nat → Grid → Grid
  lowPass : Nat → Grid → Grid
  subsample : Grid → Grid
  newFilterBank : itk.RieszFrequencyFilterBankGenerator
  project : itk.RieszFrequencyFilterBankGenerator → Grid → Grid
  inverse : Nat → Nat → Bool → List Grid → Grid

/-- The function `runStructureTensorWithGeneralizedRieszTest`, lines 51-234 of
the test, for the template arguments and arguments of `call`; `stages` gives
the outside stages of each instantiation.  The forward pyramid is set up with
`inputBands` sub-bands and `inputLevels` levels, the coefficient loop builds
`modifiedWavelets` (an exception of `SetOrder` leaves the function there), the
inverse pyramid and the inverse transform run on that list (their image is
not written: the writer is commented out), and `EXIT_SUCCESS` is returned. -/
def runStructureTensorWithGeneralizedRieszTest {Grid : Type}
    (stages : Nat → WaveletFunction → PipelineStages Grid) (call : RunCall) :
    Except String Int :=
  let s := stages call.VDimension call.TWaveletFunction
  let analysisWavelets :=
    itk.ForwardPyramid s.bandPass s.lowPass s.subsample call.inputBands call.inputLevels 0
      (s.readSpectrum call.inputImage)
  match modifiedWavelets
      (rieszStructureTensorBand
        (itk.RieszFrequencyFunction.ComputeNumberOfComponents call.VDimension)
        s.newFilterBank s.project call.inputRieszOrder)
      analysisWavelets with
  | Except.error e => Except.error e
  | Except.ok ms =>
    let _reconstructed :=
      s.inverse call.inputLevels call.inputBands call.inputApplyReconstructionFactors ms
    Except.ok EXIT_SUCCESS

namespace itk

/-! ## The structure tensor -/

section StructureTensor

variable {K : Type} [LinearOrderedField K] {Pixel : Type}

/-- The component vector at a pixel: the values of the input images there, in
the order of the inputs. -/
def componentVector (inputs : List (Pixel → K)) (q : Pixel) : List K :=
  inputs.map fun image => image q

/-- Entry `(i, j)` of the outer product `v vᵀ` of a vector with itself. -/
def outerProduct (v : List K) (i j : Nat) : K := v.getD i 0 * v.getD j 0

/-- Modelled from the spec: the structure tensor at a pixel, section 4.6 (the
class `StructureTensor` is not among the sources): the sum of the outer
products of the component vectors, averaged over a window.  `window` lists
the pixels of the window of the pixel with their weights; without averaging
it is the pixel itself with weight 1.  The result is entry `(i, j)` of the
`M × M` matrix, `M` the number of inputs; the arithmetic is exact, in an
ordered field. -/
def StructureTensor (inputs : List (Pixel → K)) (window : List (K × Pixel)) (i j : Nat) : K :=
  (window.map fun gq => gq.1 * outerProduct (componentVector inputs gq.2) i j).sum

/-- The quadratic form `xᵀ T x` of an `M × M` matrix. -/
def quadraticForm (T : Nat → Nat → K) (M : Nat) (x : Nat → K) : K :=
  ∑ i ∈ Finset.range M, ∑ j ∈ Finset.range M, x i * T i j * x j

end StructureTensor

/-! ## Sequences of operations on a generator -/

/-- A public operation on a generator: a call `SetOrder(inputOrder)` of the
generator, or a call `GetModifiableEvaluator()->SetOrder(inputOrder)` on the
evaluator that `GetModifiableEvaluator` (line 116 of the header) hands out. -/
inductive GeneratorOperation where
  | SetOrder (inputOrder : Nat)
  | EvaluatorSetOrder (inputOrder : Nat)
deriving DecidableEq, Repr

/-- The state of the generator after an operation. -/
def GeneratorOperation.apply (numComponents : Nat → Nat)
    (g : RieszFrequencyFilterBankGenerator) :
    GeneratorOperation → RieszFrequencyFilterBankGenerator
  | GeneratorOperation.SetOrder n => (RieszFrequencyFilterBankGenerator.SetOrder numComponents g n).2
  | GeneratorOperation.EvaluatorSetOrder k => { g with m_Evaluator := g.m_Evaluator.SetOrder k }

/-- The state of the generator after a sequence of operations, first to last. -/
def applyOperations (numComponents : Nat → Nat) (g : RieszFrequencyFilterBankGenerator)
    (ops : List GeneratorOperation) : RieszFrequencyFilterBankGenerator :=
  ops.foldl (fun s op => op.apply numComponents s) g

/-- The consistency of a generator state: the evaluator's order is the stored
order, and the number of required outputs is that of the stored order. -/
@[reducible]
def Consistent (numComponents : Nat → Nat) (g : RieszFrequencyFilterBankGenerator) : Prop :=
  g.m_Evaluator.m_Order = g.m_Order ∧ g.m_NumberOfRequiredOutputs = numComponents g.m_Order

end itk

namespace itk

/-! ## The wavelet filter bank of a level -/

namespace WaveletFrequencyFilterBankGenerator

variable {K : Type} [LinearOrderedField K]

/-- Modelled from the spec: band-pass filter `k` of a level at the frequency
`w`, section 4.2 (`WaveletFrequencyFilterBankGenerator` is not among the
sources): the kernel `h` evaluated at the radius scaled by `2^k`. -/
def bandPassFilter (h : K → K) (k : Nat) (w : K) : K := h (2 ^ k * w)

/-- Modelled from the spec: the low-pass filter of a level with `bands`
band-pass filters at the frequency `w`, section 4.2: the complementary
residual, the square root of what the squared band-pass magnitudes leave of 1. -/
def lowPassFilter (sqrt : K → K) (h : K → K) (bands : Nat) (w : K) : K :=
  sqrt (1 - ((List.range bands).map fun k => bandPassFilter h k w ^ 2).sum)

/-- Modelled from the spec: the `bands + 1` filters of a level at the frequency
`w`, section 4.2: the band-pass filters `0 .. bands-1`, then the low-pass
filter.  The arithmetic is exact, in an ordered field with a square root. -/
def filterBank (sqrt : K → K) (h : K → K) (bands : Nat) (w : K) : List K :=
  ((List.range bands).map fun k => bandPassFilter h k w) ++ [lowPassFilter sqrt h bands w]

end WaveletFrequencyFilterBankGenerator

end itk

namespace itk

namespace RieszFrequencyFilterBankGenerator

/-! ## The output loop of `SetOrder` -/

theorem installOutput_fields (g : RieszFrequencyFilterBankGenerator) (comp : Nat) :
    (installOutput g comp).m_Order = g.m_Order ∧
    (installOutput g comp).m_Evaluator = g.m_Evaluator ∧
    (installOutput g comp).m_NumberOfRequiredOutputs = g.m_NumberOfRequiredOutputs ∧
    (installOutput g comp).m_NextObject = g.m_NextObject + 1 ∧
    (installOutput g comp).m_MTime = g.m_MTime + 1 := by
  simp [installOutput, MakeOutput, SetNthOutput, Modified]

theorem installOutput_slot (g : RieszFrequencyFilterBankGenerator) (comp : Nat) :
    (installOutput g comp).m_Outputs[comp]? = some (some g.m_NextObject) := by
  simp only [installOutput, MakeOutput, SetNthOutput, Modified]
  split
  · rw [List.getElem?_set_self]
    simp
    omega
  · rw [List.getElem?_set_self]
    omega

theorem installOutput_other (g : RieszFrequencyFilterBankGenerator) (comp i : Nat)
    (hi : i < comp) (hlen : i < g.m_Outputs.length) :
    (installOutput g comp).m_Outputs[i]? = g.m_Outputs[i]? := by
  simp only [installOutput, MakeOutput, SetNthOutput, Modified]
  split
  · rw [List.getElem?_set_ne (by omega), List.getElem?_append_left hlen]
  · rw [List.getElem?_set_ne (by omega)]

theorem installOutput_length (g : RieszFrequencyFilterBankGenerator) (comp : Nat) :
    comp < (installOutput g comp).m_Outputs.length ∧
    g.m_Outputs.length ≤ (installOutput g comp).m_Outputs.length := by
  simp only [installOutput, MakeOutput, SetNthOutput, Modified]
  split
  · simp
    omega
  · simp
    omega

/-- The state after the first `k` turns of the output loop. -/
theorem foldl_installOutput (g : RieszFrequencyFilterBankGenerator) (k : Nat) :
    ((List.range k).foldl installOutput g).m_Order = g.m_Order ∧
    ((List.range k).foldl installOutput g).m_Evaluator = g.m_Evaluator ∧
    ((List.range k).foldl installOutput g).m_NumberOfRequiredOutputs =
      g.m_NumberOfRequiredOutputs ∧
    ((List.range k).foldl installOutput g).m_NextObject = g.m_NextObject + k ∧
    ((List.range k).foldl installOutput g).m_MTime = g.m_MTime + k ∧
    k ≤ ((List.range k).foldl installOutput g).m_Outputs.length ∧
    ∀ i, i < k →
      ((List.range k).foldl installOutput g).m_Outputs[i]? = some (some (g.m_NextObject + i)) := by
  induction k with
  | zero => simp
  | succ k ih =>
    obtain ⟨h1, h2, h3, h4, h5, h6, h7⟩ := ih
    rw [List.range_succ, List.foldl_append]
    simp only [List.foldl_cons, List.foldl_nil]
    have hf := installOutput_fields ((List.range k).foldl installOutput g) k
    obtain ⟨f1, f2, f3, f4, f5⟩ := hf
    have hl := installOutput_length ((List.range k).foldl installOutput g) k
    refine ⟨by rw [f1, h1], by rw [f2, h2], by rw [f3, h3], by rw [f4, h4]; omega,
      by rw [f5, h5]; omega, by omega, ?_⟩
    intro i hi
    rcases Nat.lt_succ_iff_lt_or_eq.mp hi with hlt | heq
    · rw [installOutput_other _ _ _ hlt (by omega)]
      exact h7 i hlt
    · subst heq
      rw [installOutput_slot, h4]

end RieszFrequencyFilterBankGenerator

end itk

namespace itk

namespace RieszFrequencyFilterBankGenerator

/-! ## `SetOrder` -/

theorem SetNumberOfRequiredOutputs_fields (g : RieszFrequencyFilterBankGenerator) (n : Nat) :
    (g.SetNumberOfRequiredOutputs n).m_Order = g.m_Order ∧
    (g.SetNumberOfRequiredOutputs n).m_Evaluator = g.m_Evaluator ∧
    (g.SetNumberOfRequiredOutputs n).m_NumberOfRequiredOutputs = n ∧
    (g.SetNumberOfRequiredOutputs n).m_Outputs = g.m_Outputs ∧
    (g.SetNumberOfRequiredOutputs n).m_NextObject = g.m_NextObject ∧
    g.m_MTime ≤ (g.SetNumberOfRequiredOutputs n).m_MTime := by
  unfold SetNumberOfRequiredOutputs
  split
  · simp [Modified]
  · rename_i h
    simp only [ne_eq, Decidable.not_not] at h
    simp [h]

/-- The state after a call of `SetOrder` that changes the order. -/
theorem SetOrder_changed (numComponents : Nat → Nat) (g : RieszFrequencyFilterBankGenerator)
    (n : Nat) (hn : 1 ≤ n) (hne : n ≠ g.m_Order) :
    (SetOrder numComponents g n).1 = Except.ok () ∧
    (SetOrder numComponents g n).2.m_Order = n ∧
    (SetOrder numComponents g n).2.m_Evaluator.m_Order = n ∧
    (SetOrder numComponents g n).2.m_NumberOfRequiredOutputs = numComponents n ∧
    (SetOrder numComponents g n).2.m_NextObject = g.m_NextObject + numComponents n ∧
    g.m_MTime < (SetOrder numComponents g n).2.m_MTime ∧
    ∀ i, i < numComponents n →
      (SetOrder numComponents g n).2.m_Outputs[i]? = some (some (g.m_NextObject + i)) := by
  have h1 : ¬ n < 1 := by omega
  have h2 : g.m_Order ≠ n := fun h => hne h.symm
  simp only [SetOrder, h1, if_false, h2, ne_eq, not_false_eq_true, if_true,
    GetNumberOfRequiredOutputs]
  obtain ⟨s1, s2, s3, s4, s5, s6⟩ := SetNumberOfRequiredOutputs_fields
    { g with m_Order := n, m_Evaluator := g.m_Evaluator.SetOrder n } (numComponents n)
  rw [s3]
  obtain ⟨f1, f2, f3, f4, f5, _, f7⟩ := foldl_installOutput
    (SetNumberOfRequiredOutputs
      { g with m_Order := n, m_Evaluator := g.m_Evaluator.SetOrder n } (numComponents n))
    (numComponents n)
  simp only [Modified]
  refine ⟨trivial, ?_, ?_, ?_, ?_, ?_, ?_⟩
  · rw [f1, s1]
  · rw [f2, s2]; rfl
  · rw [f3, s3]
  · rw [f4, s5]
  · rw [f5]
    have : g.m_MTime ≤ (SetNumberOfRequiredOutputs
      { g with m_Order := n, m_Evaluator := g.m_Evaluator.SetOrder n }
      (numComponents n)).m_MTime := s6
    omega
  · intro i hi
    rw [f7 i hi, s5]

/-- The state after a call of `SetOrder` with the stored order: nothing changes. -/
theorem SetOrder_same (numComponents : Nat → Nat) (g : RieszFrequencyFilterBankGenerator)
    (n : Nat) (hn : 1 ≤ n) (he : n = g.m_Order) :
    SetOrder numComponents g n = (Except.ok (), g) := by
  subst he
  have h1 : ¬ g.m_Order < 1 := by omega
  simp [SetOrder, h1]

/-- The call `SetOrder(0)`: the exception, and the state it leaves. -/
theorem SetOrder_zero (numComponents : Nat → Nat) (g : RieszFrequencyFilterBankGenerator) :
    SetOrder numComponents g 0 =
      (Except.error "Error: inputOrder = 0. It has to be greater than 0.", g) := by
  simp [SetOrder]
  decide

/-- Claim C1: `SetOrder(inputOrder)` raises an exception if and only if
`inputOrder < 1`, which for the unsigned argument is exactly `inputOrder = 0`;
for every `inputOrder >= 1` it returns normally. -/
theorem C1_SetOrder_raises_iff (numComponents : Nat → Nat)
    (g : RieszFrequencyFilterBankGenerator) (inputOrder : Nat) :
    ((∃ msg, (SetOrder numComponents g inputOrder).1 = Except.error msg) ↔ inputOrder < 1) ∧
    (inputOrder < 1 ↔ inputOrder = 0) ∧
    (1 ≤ inputOrder → (SetOrder numComponents g inputOrder).1 = Except.ok ()) := by
  have hok : 1 ≤ inputOrder → (SetOrder numComponents g inputOrder).1 = Except.ok () := by
    intro h
    by_cases he : inputOrder = g.m_Order
    · rw [SetOrder_same numComponents g inputOrder h he]
    · exact (SetOrder_changed numComponents g inputOrder h he).1
  refine ⟨⟨?_, ?_⟩, by omega, hok⟩
  · rintro ⟨msg, hmsg⟩
    by_contra hlt
    rw [hok (by omega)] at hmsg
    exact Except.noConfusion hmsg
  · intro hlt
    have h0 : inputOrder = 0 := by omega
    subst h0
    exact ⟨_, congrArg Prod.fst (SetOrder_zero numComponents g)⟩

/-- Claim C1 at the orders 0 and 2 of a three-dimensional generator of order 1. -/
theorem C1_SetOrder_raises_iff_witness :
    (((∃ msg, (SetOrder (RieszFrequencyFunction.ComputeNumberOfComponents 3)
        ⟨1, ⟨1⟩, 3, [some 0, some 1, some 2], 3, 7⟩ 0).1 = Except.error msg) ↔ 0 < 1) ∧
      (0 < 1 ↔ 0 = 0)) ∧
    (1 ≤ 2 ∧ (SetOrder (RieszFrequencyFunction.ComputeNumberOfComponents 3)
        ⟨1, ⟨1⟩, 3, [some 0, some 1, some 2], 3, 7⟩ 2).1 = Except.ok ()) :=
  ⟨⟨(C1_SetOrder_raises_iff _ _ 0).1, (C1_SetOrder_raises_iff
      (RieszFrequencyFunction.ComputeNumberOfComponents 3)
      ⟨1, ⟨1⟩, 3, [some 0, some 1, some 2], 3, 7⟩ 0).2.1⟩,
    by decide, (C1_SetOrder_raises_iff _ _ 2).2.2 (by decide)⟩

/-- Claim C2: when `SetOrder(0)` is rejected the generator is exactly as
before the call: stored order, evaluator, number of required outputs, output
collection, allocation counter and modification time are all unchanged. -/
theorem C2_SetOrder_zero_state_unchanged (numComponents : Nat → Nat)
    (g : RieszFrequencyFilterBankGenerator) :
    (∃ msg, (SetOrder numComponents g 0).1 = Except.error msg) ∧
    (SetOrder numComponents g 0).2 = g ∧
    (SetOrder numComponents g 0).2.GetOrder = g.GetOrder ∧
    (SetOrder numComponents g 0).2.m_Evaluator = g.m_Evaluator ∧
    (SetOrder numComponents g 0).2.GetNumberOfRequiredOutputs = g.GetNumberOfRequiredOutputs ∧
    (SetOrder numComponents g 0).2.m_Outputs = g.m_Outputs ∧
    (SetOrder numComponents g 0).2.m_MTime = g.m_MTime := by
  rw [SetOrder_zero]
  exact ⟨⟨_, rfl⟩, rfl, rfl, rfl, rfl, rfl, rfl⟩

/-- Claim C3: for a generator of stored order `m` and every `n >= 1` with
`n != m`, after `SetOrder(n)` returns, `GetOrder()` is `n`, the evaluator's
order is `n`, the number of required outputs is `ComputeNumberOfComponents(n)`,
every output slot `0 .. count-1` holds an object made during the call (the
`i`-th object allocated by it), and the generator is marked modified. -/
theorem C3_SetOrder_new_order (numComponents : Nat → Nat)
    (g : RieszFrequencyFilterBankGenerator) (n : Nat) (hn : 1 ≤ n) (hne : n ≠ g.m_Order) :
    (SetOrder numComponents g n).1 = Except.ok () ∧
    (SetOrder numComponents g n).2.GetOrder = n ∧
    (SetOrder numComponents g n).2.m_Evaluator.m_Order = n ∧
    (SetOrder numComponents g n).2.GetNumberOfRequiredOutputs = numComponents n ∧
    (∀ i, i < numComponents n →
      ∃ obj, (SetOrder numComponents g n).2.m_Outputs[i]? = some (some obj) ∧
        obj = g.m_NextObject + i ∧ g.m_NextObject ≤ obj ∧
        obj < (SetOrder numComponents g n).2.m_NextObject) ∧
    g.m_MTime < (SetOrder numComponents g n).2.m_MTime := by
  obtain ⟨h1, h2, h3, h4, h5, h6, h7⟩ := SetOrder_changed numComponents g n hn hne
  refine ⟨h1, h2, h3, h4, ?_, h6⟩
  intro i hi
  exact ⟨g.m_NextObject + i, h7 i hi, rfl, by omega, by rw [h5]; omega⟩

/-- Claim C3 at a three-dimensional generator of order 1 that is given order 2. -/
theorem C3_SetOrder_new_order_witness :
    (1 ≤ 2 ∧ 2 ≠ (1 : Nat)) ∧
    (SetOrder (RieszFrequencyFunction.ComputeNumberOfComponents 3)
      ⟨1, ⟨1⟩, 3, [some 0, some 1, some 2], 3, 7⟩ 2).2.GetNumberOfRequiredOutputs = 6 ∧
    (SetOrder (RieszFrequencyFunction.ComputeNumberOfComponents 3)
      ⟨1, ⟨1⟩, 3, [some 0, some 1, some 2], 3, 7⟩ 2).2.m_Outputs =
      [some 3, some 4, some 5, some 6, some 7, some 8] ∧
    (7 : Nat) < (SetOrder (RieszFrequencyFunction.ComputeNumberOfComponents 3)
      ⟨1, ⟨1⟩, 3, [some 0, some 1, some 2], 3, 7⟩ 2).2.m_MTime :=
  ⟨⟨by decide, by decide⟩,
    (C3_SetOrder_new_order (RieszFrequencyFunction.ComputeNumberOfComponents 3)
      ⟨1, ⟨1⟩, 3, [some 0, some 1, some 2], 3, 7⟩ 2 (by decide) (by decide)).2.2.2.1,
    by decide,
    (C3_SetOrder_new_order (RieszFrequencyFunction.ComputeNumberOfComponents 3)
      ⟨1, ⟨1⟩, 3, [some 0, some 1, some 2], 3, 7⟩ 2 (by decide) (by decide)).2.2.2.2.2⟩

end RieszFrequencyFilterBankGenerator

end itk
namespace itk

/-! ## The number of Riesz components -/

theorem mem_multiIndices (d : Nat) : ∀ (N : Nat) (α : List Nat),
    α ∈ multiIndices d N ↔ α.length = d ∧ α.sum = N := by
  induction d with
  | zero =>
    intro N α
    cases N with
    | zero =>
      simp only [multiIndices, List.mem_singleton]
      constructor
      · rintro rfl; simp
      · rintro ⟨h, _⟩; exact List.length_eq_zero.mp h
    | succ N =>
      simp only [multiIndices, List.not_mem_nil, false_iff, not_and]
      intro h
      rw [List.length_eq_zero.mp h]
      simp
  | succ d ih =>
    intro N α
    simp only [multiIndices, List.mem_flatMap, List.mem_range, List.mem_map]
    constructor
    · rintro ⟨j, hj, β, hβ, rfl⟩
      obtain ⟨h1, h2⟩ := (ih j β).mp hβ
      simp only [List.length_cons, List.sum_cons, h1, h2, true_and]
      omega
    · rintro ⟨hl, hs⟩
      cases α with
      | nil => simp at hl
      | cons a β =>
        simp only [List.length_cons, List.sum_cons] at hl hs
        refine ⟨β.sum, by omega, β, (ih _ β).mpr ⟨by omega, rfl⟩, ?_⟩
        congr 1
        omega

theorem sum_map_range {R : Type} [AddCommMonoid R] (f : Nat → R) (n : Nat) :
    ((List.range n).map f).sum = ∑ i ∈ Finset.range n, f i := by
  induction n with
  | zero => simp
  | succ n ih =>
    rw [List.range_succ, List.map_append, List.sum_append, ih, Finset.sum_range_succ]
    simp

theorem length_multiIndices_step (d N : Nat) :
    (multiIndices (d + 1) N).length =
      ∑ j ∈ Finset.range (N + 1), (multiIndices d j).length := by
  rw [multiIndices, List.length_flatMap, ← sum_map_range]
  congr 1
  apply List.map_congr_left
  intro j _
  simp

/-- Stars and bars for the enumeration: in dimension `d + 1` there are
`C(N + d, d)` multi-indices of order `N`. -/
theorem length_multiIndices_succ (d : Nat) : ∀ N : Nat,
    (multiIndices (d + 1) N).length = (N + d).choose d := by
  induction d with
  | zero =>
    intro N
    rw [length_multiIndices_step, Finset.sum_range_succ']
    simp [multiIndices]
  | succ d ih =>
    intro N
    rw [length_multiIndices_step, ← Nat.add_assoc, ← Nat.sum_range_add_choose]
    exact Finset.sum_congr rfl (fun j _ => ih j)

theorem nodup_multiIndices (d : Nat) : ∀ N : Nat, (multiIndices d N).Nodup := by
  induction d with
  | zero =>
    intro N
    cases N <;> simp [multiIndices]
  | succ d ih =>
    intro N
    rw [multiIndices, List.nodup_flatMap]
    refine ⟨?_, ?_⟩
    · intro j _
      exact (ih j).map (fun a b h => List.tail_eq_of_cons_eq h)
    · refine (List.nodup_range _).imp ?_
      intro j k hjk
      simp only [Function.onFun]
      intro α hj hk
      simp only [List.mem_map] at hj hk
      obtain ⟨β, hβ, rfl⟩ := hj
      obtain ⟨γ, hγ, hγβ⟩ := hk
      have h1 := ((mem_multiIndices d j β).mp hβ).2
      have h2 := ((mem_multiIndices d k γ).mp hγ).2
      have h3 : γ = β := List.tail_eq_of_cons_eq hγβ
      subst h3
      exact hjk (h1.symm.trans h2)

theorem ComputeNumberOfComponents_eq_choose (d N : Nat) (hd : 1 ≤ d) :
    RieszFrequencyFunction.ComputeNumberOfComponents d N = (N + d - 1).choose (d - 1) := by
  unfold RieszFrequencyFunction.ComputeNumberOfComponents
  rw [Nat.choose_eq_factorial_div_factorial (by omega)]
  congr 3
  omega

/-- Claim C4: for every order `N >= 1` and dimension `d >= 1` the number of
Riesz components, that is the number of multi-indices of `d` non-negative
integers with sum `N` (the list `multiIndices d N` holds each of them once),
equals `(N+d-1)! / ((d-1)! * N!) = C(N+d-1, d-1)`; it is the output count that
`SetOrder` installs; it is a function of `(N, d)` alone; `(N=1,d=3)` gives 3,
`(N=2,d=3)` gives 6 and `(N=1,d=2)` gives 2. -/
theorem C4_number_of_components (d N : Nat) (hd : 1 ≤ d) (hN : 1 ≤ N) :
    (∀ α : List Nat, α ∈ multiIndices d N ↔ α.length = d ∧ α.sum = N) ∧
    (multiIndices d N).Nodup ∧
    (multiIndices d N).length = RieszFrequencyFunction.ComputeNumberOfComponents d N ∧
    RieszFrequencyFunction.ComputeNumberOfComponents d N =
      (N + d - 1).factorial / ((d - 1).factorial * N.factorial) ∧
    RieszFrequencyFunction.ComputeNumberOfComponents d N = (N + d - 1).choose (d - 1) ∧
    (∀ g : RieszFrequencyFilterBankGenerator, N ≠ g.m_Order →
      (RieszFrequencyFilterBankGenerator.SetOrder
        (RieszFrequencyFunction.ComputeNumberOfComponents d) g N).2.GetNumberOfRequiredOutputs
        = (N + d - 1).choose (d - 1)) ∧
    RieszFrequencyFunction.ComputeNumberOfComponents 3 1 = 3 ∧
    RieszFrequencyFunction.ComputeNumberOfComponents 3 2 = 6 ∧
    RieszFrequencyFunction.ComputeNumberOfComponents 2 1 = 2 := by
  have hc := ComputeNumberOfComponents_eq_choose d N hd
  refine ⟨mem_multiIndices d N, nodup_multiIndices d N, ?_, rfl, hc, ?_,
    by decide, by decide, by decide⟩
  · obtain ⟨e, rfl⟩ : ∃ e, d = e + 1 := ⟨d - 1, by omega⟩
    rw [length_multiIndices_succ, hc]
    rfl
  · intro g hne
    rw [← hc]
    exact (RieszFrequencyFilterBankGenerator.SetOrder_changed _ g N hN hne).2.2.2.1

/-- Claim C4 at order 2 in dimension 3: six components. -/
theorem C4_number_of_components_witness :
    (1 ≤ 3 ∧ 1 ≤ 2) ∧
    multiIndices 3 2 = [[2, 0, 0], [1, 1, 0], [1, 0, 1], [0, 2, 0], [0, 1, 1], [0, 0, 2]] ∧
    (multiIndices 3 2).length = RieszFrequencyFunction.ComputeNumberOfComponents 3 2 ∧
    RieszFrequencyFunction.ComputeNumberOfComponents 3 2 = (2 + 3 - 1).choose (3 - 1) :=
  ⟨⟨by decide, by decide⟩, by decide,
    (C4_number_of_components 3 2 (by decide) (by decide)).2.2.1,
    (C4_number_of_components 3 2 (by decide) (by decide)).2.2.2.2.1⟩

/-! ## The energy of the Riesz components -/

namespace Cplx

variable {K : Type} [LinearOrderedField K]

theorem normSq_mul (a b : Cplx K) : normSq (mul a b) = normSq a * normSq b := by
  simp only [normSq, mul]; ring

theorem normSq_npow (z : Cplx K) (n : Nat) : normSq (npow z n) = normSq z ^ n := by
  induction n with
  | zero => simp [npow, normSq, one]
  | succ n ih => rw [npow, normSq_mul, ih, pow_succ]

theorem normSq_smul (r : K) (z : Cplx K) : normSq (smul r z) = r ^ 2 * normSq z := by
  simp only [normSq, smul]; ring

end Cplx

section RieszFunction

variable {K : Type} [LinearOrderedField K]

theorem normSq_rieszMonomial (nrm : K) : ∀ (α : List Nat) (w : List K),
    Cplx.normSq (rieszMonomial nrm α w) = monomial α (w.map fun x => x ^ 2 / nrm ^ 2) := by
  intro α
  induction α with
  | nil => intro w; simp [rieszMonomial, monomial, Cplx.normSq, Cplx.one]
  | cons a α ih =>
    intro w
    cases w with
    | nil => simp [rieszMonomial, monomial, Cplx.normSq, Cplx.one]
    | cons x w =>
      simp only [rieszMonomial, List.map_cons, monomial, Cplx.normSq_mul, Cplx.normSq_npow, ih]
      congr 2
      simp only [Cplx.normSq]
      rw [neg_pow_two, div_pow]; ring

theorem prod_factorial_ne_zero (α : List Nat) :
    (α.map fun a => (a.factorial : K)).prod ≠ 0 := by
  induction α with
  | nil => simp
  | cons a α ih =>
    simp only [List.map_cons, List.prod_cons]
    exact mul_ne_zero (Nat.cast_ne_zero.mpr (Nat.factorial_ne_zero a)) ih

theorem multinomialCoefficient_cons (N j : Nat) (hj : j ≤ N) (β : List Nat) :
    (multinomialCoefficient N ((N - j) :: β) : K) =
      (N.choose j : K) * multinomialCoefficient j β := by
  unfold multinomialCoefficient
  rw [Nat.cast_choose K hj]
  simp only [List.map_cons, List.prod_cons]
  have h1 : (β.map fun a => (a.factorial : K)).prod ≠ 0 := prod_factorial_ne_zero β
  have h2 : ((N - j).factorial : K) ≠ 0 := Nat.cast_ne_zero.mpr (Nat.factorial_ne_zero _)
  have h3 : (j.factorial : K) ≠ 0 := Nat.cast_ne_zero.mpr (Nat.factorial_ne_zero _)
  field_simp
  ring

/-- The multinomial theorem over the enumeration of the multi-indices. -/
theorem sum_multiIndices_monomial (d : Nat) : ∀ (N : Nat) (u : List K), u.length = d →
    ((multiIndices d N).map fun α => multinomialCoefficient N α * monomial α u).sum
      = u.sum ^ N := by
  induction d with
  | zero =>
    intro N u hu
    rw [List.length_eq_zero.mp hu]
    cases N with
    | zero => simp [multiIndices, multinomialCoefficient, monomial]
    | succ N => simp [multiIndices]
  | succ d ih =>
    intro N u hu
    cases u with
    | nil => simp at hu
    | cons x u =>
      simp only [List.length_cons, Nat.add_right_cancel_iff] at hu
      rw [multiIndices, List.map_flatMap, List.flatMap, List.sum_flatten, List.map_map,
        sum_map_range, List.sum_cons, add_comm x, add_pow]
      refine Finset.sum_congr rfl ?_
      intro j hj
      have hjN : j ≤ N := by
        have := Finset.mem_range.mp hj
        omega
      simp only [Function.comp, List.map_map]
      rw [← ih j u hu, ← List.sum_map_mul_right, ← List.sum_map_mul_right]
      congr 1
      apply List.map_congr_left
      intro β _
      simp only [Function.comp, monomial]
      rw [multinomialCoefficient_cons N j hjN]
      ring

theorem multinomialCoefficient_nonneg (N : Nat) (α : List Nat) :
    (0 : K) ≤ multinomialCoefficient N α := by
  unfold multinomialCoefficient
  apply div_nonneg (Nat.cast_nonneg _)
  apply List.prod_nonneg
  intro x hx
  simp only [List.mem_map] at hx
  obtain ⟨a, _, rfl⟩ := hx
  exact Nat.cast_nonneg _

theorem squaredNorm_nonneg (w : List K) : 0 ≤ squaredNorm w := by
  unfold squaredNorm
  apply List.sum_nonneg
  intro x hx
  simp only [List.mem_map] at hx
  obtain ⟨a, _, rfl⟩ := hx
  positivity

theorem squaredNorm_pos (w : List K) (hne : ∃ x, x ∈ w ∧ x ≠ 0) : 0 < squaredNorm w := by
  induction w with
  | nil =>
    obtain ⟨x, hx, _⟩ := hne
    simp at hx
  | cons y w ih =>
    have hcons : squaredNorm (y :: w) = y ^ 2 + squaredNorm w := by
      simp [squaredNorm]
    rw [hcons]
    by_cases hy : y = 0
    · obtain ⟨x, hx, hx0⟩ := hne
      rcases List.mem_cons.mp hx with h | h
      · exact absurd (h ▸ hy) hx0
      · have := ih ⟨x, h, hx0⟩
        positivity
    · have h1 : 0 < y ^ 2 := by positivity
      have h2 := squaredNorm_nonneg w
      linarith

theorem sum_map_div (w : List K) (c : K) : (w.map fun x => x / c).sum = w.sum / c := by
  induction w with
  | nil => simp
  | cons x w ih => simp [ih, add_div]

/-- Claim C5: for every order `N`, dimension `d` and non-zero frequency vector
`ω`, the squared magnitudes of the generalized Riesz components
`sqrt(N!/(α₁!…α_d!)) · Π_i (−i·ω_i/|ω|)^{α_i}`, over all multi-indices `α` of
sum `N`, add up to exactly 1 (in exact arithmetic, for every square root
function of an ordered field). -/
theorem C5_riesz_energy_normalized (sqrt : K → K)
    (hsqrt : ∀ x : K, 0 ≤ x → sqrt x * sqrt x = x)
    (d N : Nat) (w : List K) (hw : w.length = d) (hne : ∃ x, x ∈ w ∧ x ≠ 0) :
    ((multiIndices d N).map fun α => Cplx.normSq (RieszComponent sqrt N α w)).sum = 1 := by
  have hpos := squaredNorm_pos w hne
  have hS := hsqrt _ (squaredNorm_nonneg w)
  have hall : (w.all fun x => decide (x = 0)) = false := by
    obtain ⟨x, hx, hx0⟩ := hne
    rw [Bool.eq_false_iff]
    intro h
    rw [List.all_eq_true] at h
    exact hx0 (of_decide_eq_true (h x hx))
  have key : ∀ α, Cplx.normSq (RieszComponent sqrt N α w) =
      multinomialCoefficient N α * monomial α (w.map fun x => x ^ 2 / squaredNorm w) := by
    intro α
    simp only [RieszComponent, hall, Bool.false_eq_true, if_false]
    rw [Cplx.normSq_smul, normSq_rieszMonomial, pow_two, pow_two,
      hsqrt _ (multinomialCoefficient_nonneg N α), hS]
  simp only [key]
  rw [sum_multiIndices_monomial d N _ (by simpa using hw)]
  have h1 := sum_map_div (w.map fun x => x ^ 2) (squaredNorm w)
  rw [List.map_map] at h1
  have h2 : (w.map fun x => x ^ 2 / squaredNorm w).sum = squaredNorm w / squaredNorm w := h1
  rw [h2, div_self (ne_of_gt hpos), one_pow]

end RieszFunction

/-- Claim C5 over the real numbers, at order 2 and the frequency vector (3, 4). -/
theorem C5_riesz_energy_normalized_witness :
    ((multiIndices 2 2).map fun α =>
      Cplx.normSq (RieszComponent Real.sqrt 2 α [(3 : ℝ), 4])).sum = 1 :=
  C5_riesz_energy_normalized Real.sqrt (fun _ hx => Real.mul_self_sqrt hx) 2 2 [3, 4] rfl
    ⟨3, by simp, by norm_num⟩

end itk
namespace itk

/-! ## The Simoncelli kernel -/

namespace SimoncelliIsotropicWavelet

/-- Claim C6: `EvaluateMagnitude` equals `cos((π/2) · log2(2ω/π))` for every
frequency `ω` of the half-open support `]π/4, π]`, and is exactly `0` for every
frequency outside it, `ω = 0` included; on every input it has a value, that is
no division and no logarithm faults (the logarithm is only taken of the
positive number `2ω/π`). -/
theorem C6_EvaluateMagnitude_support {K : Type} [LinearOrderedField K]
    (pi : K) (cos : K → K) (log2 : K → Option K) (hpi : 0 < pi)
    (hlog : ∀ x : K, 0 < x → ∃ l, log2 x = some l) (w : K) :
    (pi / 4 < w ∧ w ≤ pi →
      0 < 2 * w / pi ∧
      ∃ l, log2 (2 * w / pi) = some l ∧
        EvaluateMagnitude pi cos log2 w = some (cos (pi / 2 * l))) ∧
    (¬ (pi / 4 < w ∧ w ≤ pi) → EvaluateMagnitude pi cos log2 w = some 0) ∧
    EvaluateMagnitude pi cos log2 0 = some 0 ∧
    ∃ v, EvaluateMagnitude pi cos log2 w = some v := by
  have hin : pi / 4 < w ∧ w ≤ pi →
      0 < 2 * w / pi ∧
      ∃ l, log2 (2 * w / pi) = some l ∧
        EvaluateMagnitude pi cos log2 w = some (cos (pi / 2 * l)) := by
    intro hw
    have hwpos : 0 < w := lt_trans (by positivity) hw.1
    have hr : 0 < 2 * w / pi := by positivity
    obtain ⟨l, hl⟩ := hlog _ hr
    refine ⟨hr, l, hl, ?_⟩
    simp only [EvaluateMagnitude, hw, and_self, if_true, checkedDiv, ne_of_gt hpi, if_false, hl]
  have hout : ¬ (pi / 4 < w ∧ w ≤ pi) → EvaluateMagnitude pi cos log2 w = some 0 := by
    intro hw
    simp only [EvaluateMagnitude, hw, if_false]
  refine ⟨hin, hout, ?_, ?_⟩
  · have h0 : ¬ (pi / 4 < 0 ∧ (0 : K) ≤ pi) := by
      intro h
      have : (0 : K) < pi / 4 := by positivity
      exact absurd h.1 (not_lt.mpr this.le)
    simp only [EvaluateMagnitude, h0, if_false]
  · by_cases hw : pi / 4 < w ∧ w ≤ pi
    · obtain ⟨_, l, _, hv⟩ := hin hw
      exact ⟨_, hv⟩
    · exact ⟨_, hout hw⟩

/-- Claim C6 over the real numbers with the real cosine and logarithm: the
value at `ω = π/2` is `cos((π/2) · log2 1)`. -/
theorem C6_EvaluateMagnitude_support_witness :
    ∃ l, (fun x : ℝ => if 0 < x then some (Real.logb 2 x) else none)
        (2 * (Real.pi / 2) / Real.pi) = some l ∧
      EvaluateMagnitude Real.pi Real.cos
        (fun x : ℝ => if 0 < x then some (Real.logb 2 x) else none) (Real.pi / 2) =
        some (Real.cos (Real.pi / 2 * l)) :=
  ((C6_EvaluateMagnitude_support Real.pi Real.cos
    (fun x : ℝ => if 0 < x then some (Real.logb 2 x) else none) Real.pi_pos
    (fun x hx => ⟨Real.logb 2 x, by simp [hx]⟩) (Real.pi / 2)).1
    ⟨by linarith [Real.pi_pos], by linarith [Real.pi_pos]⟩).2

end SimoncelliIsotropicWavelet

/-! ## The forward pyramid -/

section Pyramid

variable {Grid : Type}

theorem length_ForwardPyramid (bandPass : Nat → Nat → Grid → Grid)
    (lowPass : Nat → Grid → Grid) (subsample : Grid → Grid) (K : Nat) :
    ∀ (L level : Nat) (x : Grid),
      (ForwardPyramid bandPass lowPass subsample K L level x).length = L * K + 1 := by
  intro L
  induction L with
  | zero => intro level x; simp [ForwardPyramid]
  | succ L ih =>
    intro level x
    simp only [ForwardPyramid, List.length_append, List.length_map, List.length_range, ih]
    ring

theorem getLast_ForwardPyramid (bandPass : Nat → Nat → Grid → Grid)
    (lowPass : Nat → Grid → Grid) (subsample : Grid → Grid) (K : Nat) :
    ∀ (L level : Nat) (x : Grid),
      (ForwardPyramid bandPass lowPass subsample K L level x).getLast? =
        some (residualLowPass lowPass subsample L level x) := by
  intro L
  induction L with
  | zero => intro level x; simp [ForwardPyramid, residualLowPass]
  | succ L ih =>
    intro level x
    simp only [ForwardPyramid, residualLowPass]
    rw [List.getLast?_append, ih]
    simp

end Pyramid

end itk

/-! ## The coefficient loop of the structure-tensor test -/

section StructureTensorTest

variable {Grid : Type}

theorem rieszStructureTensorBand_ok (numComponents : Nat → Nat)
    (newFilterBank : itk.RieszFrequencyFilterBankGenerator)
    (project : itk.RieszFrequencyFilterBankGenerator → Grid → Grid)
    (inputRieszOrder : Nat) (h : 1 ≤ inputRieszOrder) (band : Grid) :
    rieszStructureTensorBand numComponents newFilterBank project inputRieszOrder band =
      Except.ok (project (itk.RieszFrequencyFilterBankGenerator.SetOrder numComponents
        newFilterBank inputRieszOrder).2 band) := by
  have hok : (itk.RieszFrequencyFilterBankGenerator.SetOrder numComponents newFilterBank
      inputRieszOrder).1 = Except.ok () := by
    by_cases he : inputRieszOrder = newFilterBank.m_Order
    · rw [itk.RieszFrequencyFilterBankGenerator.SetOrder_same _ _ _ h he]
    · exact (itk.RieszFrequencyFilterBankGenerator.SetOrder_changed _ _ _ h he).1
  unfold rieszStructureTensorBand
  generalize itk.RieszFrequencyFilterBankGenerator.SetOrder numComponents newFilterBank
    inputRieszOrder = r at hok
  obtain ⟨r1, r2⟩ := r
  simp only at hok
  subst hok
  rfl

theorem modifiedWaveletsFrom_ok (step : Grid → Except String Grid) (n : Nat) :
    ∀ (ws : List Grid) (i : Nat) (ms : List Grid), i + ws.length = n →
      modifiedWaveletsFrom step n i ws = Except.ok ms →
      ms.length = ws.length ∧
      ms.getLast? = ws.getLast? ∧
      ∀ j, j + 1 < ws.length →
        ∃ w m, ws[j]? = some w ∧ step w = Except.ok m ∧ ms[j]? = some m := by
  intro ws
  induction ws with
  | nil =>
    intro i ms _ h
    simp only [modifiedWaveletsFrom, Except.ok.injEq] at h
    subst h
    simp
  | cons w rest ih =>
    intro i ms hn h
    simp only [List.length_cons] at hn
    simp only [modifiedWaveletsFrom] at h
    split at h
    · rename_i hi
      have hrest : rest = [] := by
        apply List.length_eq_zero.mp
        omega
      subst hrest
      simp only [modifiedWaveletsFrom, Except.ok.injEq] at h
      subst h
      simp
    · rename_i hi
      split at h
      · exact Except.noConfusion h
      · rename_i m hm
        split at h
        · exact Except.noConfusion h
        · rename_i ms' hms'
          simp only [Except.ok.injEq] at h
          subst h
          obtain ⟨h1, h2, h3⟩ := ih (i + 1) ms' (by omega) hms'
          have hne : rest ≠ [] := by
            intro hr
            subst hr
            simp at hn
            omega
          have hne' : ms' ≠ [] := by
            intro hr
            subst hr
            simp at h1
            exact hne (List.length_eq_zero.mp h1.symm)
          refine ⟨by simp [h1], ?_, ?_⟩
          · obtain ⟨r, rs, hr⟩ := List.exists_cons_of_ne_nil hne
            obtain ⟨q, qs, hq⟩ := List.exists_cons_of_ne_nil hne'
            rw [hr, hq, List.getLast?_cons_cons, List.getLast?_cons_cons, ← hr, ← hq, h2]
          · intro j hj
            cases j with
            | zero => exact ⟨w, m, by simp, hm, by simp⟩
            | succ j =>
              obtain ⟨w', m', e1, e2, e3⟩ := h3 j (by simp at hj; omega)
              exact ⟨w', m', by simpa using e1, e2, by simpa using e3⟩

theorem modifiedWaveletsFrom_total (step : Grid → Except String Grid) (n : Nat)
    (hstep : ∀ w, ∃ m, step w = Except.ok m) :
    ∀ (ws : List Grid) (i : Nat), ∃ ms, modifiedWaveletsFrom step n i ws = Except.ok ms := by
  intro ws
  induction ws with
  | nil => intro i; exact ⟨[], rfl⟩
  | cons w rest ih =>
    intro i
    obtain ⟨ms, hms⟩ := ih (i + 1)
    obtain ⟨m, hm⟩ := hstep w
    simp only [modifiedWaveletsFrom, hms, hm]
    split
    · exact ⟨_, rfl⟩
    · exact ⟨_, rfl⟩

/-- Claim C8: for all levels `L` and sub-band counts `K` the forward pyramid
produces exactly `L*K+1` outputs, the residual low-pass last; the list that
the structure-tensor pipeline hands to the inverse pyramid has exactly that
many entries, in the same order (entry `j < L*K` is the processed forward
output `j`), and its last entry is the unmodified last forward output; for a
Riesz order of at least 1 the loop does produce that list. -/
theorem C8_pyramid_output_count (bandPass : Nat → Nat → Grid → Grid)
    (lowPass : Nat → Grid → Grid) (subsample : Grid → Grid)
    (numComponents : Nat → Nat) (newFilterBank : itk.RieszFrequencyFilterBankGenerator)
    (project : itk.RieszFrequencyFilterBankGenerator → Grid → Grid)
    (inputRieszOrder L K : Nat) (x : Grid) :
    (itk.ForwardPyramid bandPass lowPass subsample K L 0 x).length = L * K + 1 ∧
    (itk.ForwardPyramid bandPass lowPass subsample K L 0 x).getLast? =
      some (itk.residualLowPass lowPass subsample L 0 x) ∧
    (∀ ms, modifiedWavelets
        (rieszStructureTensorBand numComponents newFilterBank project inputRieszOrder)
        (itk.ForwardPyramid bandPass lowPass subsample K L 0 x) = Except.ok ms →
      ms.length = L * K + 1 ∧
      ms.getLast? = (itk.ForwardPyramid bandPass lowPass subsample K L 0 x).getLast? ∧
      ∀ j, j < L * K → ∃ w m,
        (itk.ForwardPyramid bandPass lowPass subsample K L 0 x)[j]? = some w ∧
        rieszStructureTensorBand numComponents newFilterBank project inputRieszOrder w =
          Except.ok m ∧
        ms[j]? = some m) ∧
    (1 ≤ inputRieszOrder → ∃ ms, modifiedWavelets
        (rieszStructureTensorBand numComponents newFilterBank project inputRieszOrder)
        (itk.ForwardPyramid bandPass lowPass subsample K L 0 x) = Except.ok ms) := by
  have hlen := itk.length_ForwardPyramid bandPass lowPass subsample K L 0 x
  refine ⟨hlen, itk.getLast_ForwardPyramid bandPass lowPass subsample K L 0 x, ?_, ?_⟩
  · intro ms hms
    obtain ⟨h1, h2, h3⟩ := modifiedWaveletsFrom_ok _ _ _ 0 ms (by simp) hms
    refine ⟨by rw [h1, hlen], h2, ?_⟩
    intro j hj
    exact h3 j (by rw [hlen]; omega)
  · intro h
    exact modifiedWaveletsFrom_total _ _
      (fun w => ⟨_, rieszStructureTensorBand_ok numComponents newFilterBank project
        inputRieszOrder h w⟩) _ 0

/-- Claim C8 at `L = 2`, `K = 2` and Riesz order 1: five forward outputs, and
five entries handed to the inverse pyramid. -/
theorem C8_pyramid_output_count_witness :
    (itk.ForwardPyramid (fun level k g => 100 * (level + 1) + 10 * (k + 1) + g)
      (fun _ g => g + 1) (fun g => 2 * g) 2 2 0 (1 : Nat)).length = 2 * 2 + 1 ∧
    (1 ≤ 1 ∧ ∃ ms, modifiedWavelets
      (rieszStructureTensorBand (itk.RieszFrequencyFunction.ComputeNumberOfComponents 2)
        ⟨0, ⟨0⟩, 0, [], 0, 0⟩ (fun fb g => g + 1000 * fb.m_NumberOfRequiredOutputs) 1)
      (itk.ForwardPyramid (fun level k g => 100 * (level + 1) + 10 * (k + 1) + g)
        (fun _ g => g + 1) (fun g => 2 * g) 2 2 0 (1 : Nat)) = Except.ok ms) :=
  ⟨(C8_pyramid_output_count _ _ _ (itk.RieszFrequencyFunction.ComputeNumberOfComponents 2)
      ⟨0, ⟨0⟩, 0, [], 0, 0⟩ (fun fb g => g + 1000 * fb.m_NumberOfRequiredOutputs) 1 2 2 1).1,
    by decide,
    (C8_pyramid_output_count _ _ _ (itk.RieszFrequencyFunction.ComputeNumberOfComponents 2)
      ⟨0, ⟨0⟩, 0, [], 0, 0⟩ (fun fb g => g + 1000 * fb.m_NumberOfRequiredOutputs) 1 2 2 1).2.2.2
      (by decide)⟩

end StructureTensorTest

/-! ## The entry point of the structure-tensor test -/

/-- The parsing of arguments beyond the range of `long` and of `int`: `strtol`
saturates, and the conversions keep the low 32 bits. -/
theorem atoi_out_of_range :
    toUnsigned (atoi "9223372036854775810") = 4294967295 ∧
    toUnsigned (atoi "18446744073709551619") = 4294967295 ∧
    toUnsigned (atoi "9223372036854775808") = 4294967295 ∧
    toUnsigned (atoi "-9223372036854775809") = 0 ∧
    toUnsigned (atoi "4294967298") = 2 ∧
    toUnsigned (atoi "-1") = 4294967295 ∧
    atoi "2147483648" = -2147483648 := by
  decide

theorem itkStructureTensorWithGeneralizedRieszTest_dispatch
    (run : RunCall → Except String Int) (argv : List String)
    (h8 : 8 ≤ argv.length) (h9 : argv.length ≤ 9)
    (hflag : argv.getD 7 "" = "Apply" ∨ argv.getD 7 "" = "NoApply")
    (hdim : selectedDimension argv = 2 ∨ selectedDimension argv = 3)
    (wv : WaveletFunction) (hname : argv.getD 5 "" = wv.name) :
    itkStructureTensorWithGeneralizedRieszTest run argv =
      run ⟨selectedDimension argv, wv, argv.getD 1 "", argv.getD 2 "",
        toUnsigned (atoi (argv.getD 3 "")), toUnsigned (atoi (argv.getD 4 "")),
        toUnsigned (atoi (argv.getD 6 "")), decide (argv.getD 7 "" = "Apply")⟩ := by
  have hargc : ¬ (argv.length < 8 ∨ argv.length > 9) := by omega
  unfold selectedDimension at hdim ⊢
  unfold itkStructureTensorWithGeneralizedRieszTest
  simp only [hargc, if_false]
  generalize (if argv.length = 9 then toUnsigned (atoi (argv.getD 8 "")) else 3) = dim
    at hdim ⊢
  generalize argv.getD 7 "" = a7 at hflag ⊢
  generalize argv.getD 5 "" = a5 at hname ⊢
  subst hname
  rcases hflag with hf | hf <;> rcases hdim with hd | hd <;> subst hf <;> subst hd <;>
    cases wv <;> simp [WaveletFunction.name]

theorem itkStructureTensorWithGeneralizedRieszTest_failure
    (run : RunCall → Except String Int) (argv : List String)
    (h : argv.length < 8 ∨ 9 < argv.length ∨
      (argv.getD 7 "" ≠ "Apply" ∧ argv.getD 7 "" ≠ "NoApply") ∨
      (selectedDimension argv ≠ 2 ∧ selectedDimension argv ≠ 3) ∨
      (∀ wv : WaveletFunction, argv.getD 5 "" ≠ wv.name)) :
    itkStructureTensorWithGeneralizedRieszTest run argv = Except.ok EXIT_FAILURE := by
  unfold itkStructureTensorWithGeneralizedRieszTest
  by_cases hargc : argv.length < 8 ∨ argv.length > 9
  · simp only [hargc, if_true]
  · simp only [hargc, if_false]
    have h' : (argv.getD 7 "" ≠ "Apply" ∧ argv.getD 7 "" ≠ "NoApply") ∨
      (selectedDimension argv ≠ 2 ∧ selectedDimension argv ≠ 3) ∨
      (∀ wv : WaveletFunction, argv.getD 5 "" ≠ wv.name) := by
      rcases h with h | h | h
      · exact absurd (Or.inl h) hargc
      · exact absurd (Or.inr h) hargc
      · exact h
    unfold selectedDimension at h'
    generalize (if argv.length = 9 then toUnsigned (atoi (argv.getD 8 "")) else 3) = dim
      at h' ⊢
    generalize argv.getD 7 "" = a7 at h' ⊢
    generalize argv.getD 5 "" = a5 at h' ⊢
    rcases h' with ⟨hA, hN⟩ | ⟨h2, h3⟩ | hw
    · simp only [hA, hN, if_false]
    · simp only [h2, h3, if_false]
      split <;> rfl
    · have w1 := hw .Held
      have w2 := hw .Vow
      have w3 := hw .Simoncelli
      have w4 := hw .Shannon
      simp only [WaveletFunction.name] at w1 w2 w3 w4
      simp only [w1, w2, w3, w4, if_false]
      split
      · rfl
      · split_ifs <;> rfl

/-- Claim C10: the entry point returns the non-zero code `EXIT_FAILURE` without
calling the run (whatever the run would do) if and only if the argument count
is outside 8..9, or the applyReconstructionFactors string is neither `Apply`
nor `NoApply`, or the dimension (3 when omitted) is neither 2 nor 3, or the
wavelet name is not one of Held, Vow, Simoncelli, Shannon; otherwise its result
is that of the run instantiated for that dimension and wavelet, with the
parsed arguments and the flag true exactly when the string is `Apply`. -/
theorem C10_entry_point_dispatch (argv : List String) :
    ((∀ run : RunCall → Except String Int,
        itkStructureTensorWithGeneralizedRieszTest run argv = Except.ok EXIT_FAILURE) ↔
      (argv.length < 8 ∨ 9 < argv.length ∨
        (argv.getD 7 "" ≠ "Apply" ∧ argv.getD 7 "" ≠ "NoApply") ∨
        (selectedDimension argv ≠ 2 ∧ selectedDimension argv ≠ 3) ∨
        (∀ wv : WaveletFunction, argv.getD 5 "" ≠ wv.name))) ∧
    EXIT_FAILURE ≠ 0 ∧
    (8 ≤ argv.length → argv.length ≤ 9 →
      (argv.getD 7 "" = "Apply" ∨ argv.getD 7 "" = "NoApply") →
      (selectedDimension argv = 2 ∨ selectedDimension argv = 3) →
      ∀ wv : WaveletFunction, argv.getD 5 "" = wv.name →
      ∀ run : RunCall → Except String Int,
        itkStructureTensorWithGeneralizedRieszTest run argv =
          run ⟨selectedDimension argv, wv, argv.getD 1 "", argv.getD 2 "",
            toUnsigned (atoi (argv.getD 3 "")), toUnsigned (atoi (argv.getD 4 "")),
            toUnsigned (atoi (argv.getD 6 "")), decide (argv.getD 7 "" = "Apply")⟩) := by
  refine ⟨⟨?_, fun h run => itkStructureTensorWithGeneralizedRieszTest_failure run argv h⟩,
    by decide, ?_⟩
  · intro hall
    by_contra hbad
    simp only [not_or, not_lt, not_and_or, not_not, not_forall] at hbad
    obtain ⟨h8, h9, hflag, hdim, wv, hname⟩ := hbad
    have hrun := itkStructureTensorWithGeneralizedRieszTest_dispatch
      (fun _ => Except.ok EXIT_SUCCESS) argv h8 h9 hflag hdim wv hname
    rw [hall] at hrun
    exact absurd hrun (by simp [EXIT_FAILURE, EXIT_SUCCESS])
  · intro h8 h9 hflag hdim wv hname run
    exact itkStructureTensorWithGeneralizedRieszTest_dispatch run argv h8 h9 hflag hdim wv hname

/-- Claim C10 at a nine-argument command line: the two-dimensional Shannon run
is called with levels 2, bands 2, order 1 and the flag set. -/
theorem C10_entry_point_dispatch_witness :
    ∀ run : RunCall → Except String Int,
      itkStructureTensorWithGeneralizedRieszTest run
        ["itkStructureTensorWithGeneralizedRieszTest", "in.nrrd", "out.nrrd", "2", "2",
          "Shannon", "1", "Apply", "2"] =
        run ⟨2, WaveletFunction.Shannon, "in.nrrd", "out.nrrd", 2, 2, 1, true⟩ :=
  (C10_entry_point_dispatch
    ["itkStructureTensorWithGeneralizedRieszTest", "in.nrrd", "out.nrrd", "2", "2",
      "Shannon", "1", "Apply", "2"]).2.2 (by decide) (by decide) (Or.inl (by decide))
    (Or.inl (by decide)) WaveletFunction.Shannon (by decide)

/-! ## The optional arguments of the entry point -/

/-- Claim C11, counterexample: an invocation that gives only inputImage,
outputImage, levels, bands and rieszOrder (six entries of `argv`) is rejected
with `EXIT_FAILURE` whatever the run would do, also a run that would succeed. -/
theorem C11_five_arguments_rejected :
    (∀ run : RunCall → Except String Int,
      itkStructureTensorWithGeneralizedRieszTest run
        ["itkStructureTensorWithGeneralizedRieszTest", "in.nrrd", "out.nrrd", "2", "2", "1"] =
        Except.ok EXIT_FAILURE) ∧
    itkStructureTensorWithGeneralizedRieszTest (fun _ => Except.ok EXIT_SUCCESS)
        ["itkStructureTensorWithGeneralizedRieszTest", "in.nrrd", "out.nrrd", "2", "2", "1"] ≠
      Except.ok EXIT_SUCCESS :=
  ⟨fun _ => rfl, by simp [itkStructureTensorWithGeneralizedRieszTest, EXIT_FAILURE, EXIT_SUCCESS]⟩

/-- Claim C11, amended: only the dimension is optional.  An invocation with
fewer than seven arguments after the program name is rejected as a usage
error; one that gives inputImage, outputImage, levels, bands, a supported
waveletFunction, rieszOrder and `Apply` or `NoApply`, and no dimension, is
accepted and runs in dimension 3. -/
theorem C11_only_dimension_optional (argv : List String) :
    (argv.length < 8 → ∀ run : RunCall → Except String Int,
      itkStructureTensorWithGeneralizedRieszTest run argv = Except.ok EXIT_FAILURE) ∧
    (argv.length = 8 →
      (argv.getD 7 "" = "Apply" ∨ argv.getD 7 "" = "NoApply") →
      ∀ wv : WaveletFunction, argv.getD 5 "" = wv.name →
      ∀ run : RunCall → Except String Int,
        itkStructureTensorWithGeneralizedRieszTest run argv =
          run ⟨3, wv, argv.getD 1 "", argv.getD 2 "",
            toUnsigned (atoi (argv.getD 3 "")), toUnsigned (atoi (argv.getD 4 "")),
            toUnsigned (atoi (argv.getD 6 "")), decide (argv.getD 7 "" = "Apply")⟩) := by
  refine ⟨fun h run =>
    itkStructureTensorWithGeneralizedRieszTest_failure run argv (Or.inl h), ?_⟩
  intro h8 hflag wv hname run
  have hdim : selectedDimension argv = 3 := by
    unfold selectedDimension
    rw [if_neg (by omega)]
  have h := itkStructureTensorWithGeneralizedRieszTest_dispatch run argv (by omega) (by omega)
    hflag (Or.inr hdim) wv hname
  rw [hdim] at h
  exact h

/-- Claim C11, amended, at a seven-argument command line: the three-dimensional
Held run is called. -/
theorem C11_only_dimension_optional_witness :
    ∀ run : RunCall → Except String Int,
      itkStructureTensorWithGeneralizedRieszTest run
        ["itkStructureTensorWithGeneralizedRieszTest", "in.nrrd", "out.nrrd", "2", "2",
          "Held", "1", "NoApply"] =
        run ⟨3, WaveletFunction.Held, "in.nrrd", "out.nrrd", 2, 2, 1, false⟩ :=
  (C11_only_dimension_optional
    ["itkStructureTensorWithGeneralizedRieszTest", "in.nrrd", "out.nrrd", "2", "2",
      "Held", "1", "NoApply"]).2 (by decide) (Or.inr (by decide)) WaveletFunction.Held
    (by decide)

/-! ## The run with Riesz order 0 -/

section StructureTensorRun

variable {Grid : Type}

theorem rieszStructureTensorBand_zero (numComponents : Nat → Nat)
    (newFilterBank : itk.RieszFrequencyFilterBankGenerator)
    (project : itk.RieszFrequencyFilterBankGenerator → Grid → Grid) (band : Grid) :
    rieszStructureTensorBand numComponents newFilterBank project 0 band =
      Except.error "Error: inputOrder = 0. It has to be greater than 0." := by
  unfold rieszStructureTensorBand
  rw [itk.RieszFrequencyFilterBankGenerator.SetOrder_zero]

theorem modifiedWavelets_first_error (step : Grid → Except String Grid) (w : Grid)
    (rest : List Grid) (e : String) (hrest : rest ≠ []) (hstep : step w = Except.error e) :
    modifiedWavelets step (w :: rest) = Except.error e := by
  have hlen : 0 < rest.length := List.length_pos.mpr hrest
  have hne : ¬ (0 = (w :: rest).length - 1) := by
    simp only [List.length_cons]
    omega
  simp only [modifiedWavelets, modifiedWaveletsFrom, hne, if_false, hstep]

theorem runStructureTensorWithGeneralizedRieszTest_order_zero
    (stages : Nat → WaveletFunction → PipelineStages Grid) (call : RunCall)
    (horder : call.inputRieszOrder = 0) (hbands : 1 ≤ call.inputLevels * call.inputBands) :
    runStructureTensorWithGeneralizedRieszTest stages call =
      Except.error "Error: inputOrder = 0. It has to be greater than 0." := by
  unfold runStructureTensorWithGeneralizedRieszTest
  simp only
  have hlen := itk.length_ForwardPyramid
    (stages call.VDimension call.TWaveletFunction).bandPass
    (stages call.VDimension call.TWaveletFunction).lowPass
    (stages call.VDimension call.TWaveletFunction).subsample call.inputBands call.inputLevels 0
    ((stages call.VDimension call.TWaveletFunction).readSpectrum call.inputImage)
  generalize itk.ForwardPyramid
    (stages call.VDimension call.TWaveletFunction).bandPass
    (stages call.VDimension call.TWaveletFunction).lowPass
    (stages call.VDimension call.TWaveletFunction).subsample call.inputBands call.inputLevels 0
    ((stages call.VDimension call.TWaveletFunction).readSpectrum call.inputImage) = ws at hlen ⊢
  cases ws with
  | nil => simp at hlen
  | cons w rest =>
    have hrest : rest ≠ [] := by
      intro h
      subst h
      simp only [List.length_singleton] at hlen
      omega
    rw [horder, modifiedWavelets_first_error _ w rest _ hrest
      (rieszStructureTensorBand_zero _ _ _ w)]

theorem runStructureTensorWithGeneralizedRieszTest_no_levels
    (stages : Nat → WaveletFunction → PipelineStages Grid) (call : RunCall)
    (hlevels : call.inputLevels = 0) :
    runStructureTensorWithGeneralizedRieszTest stages call = Except.ok EXIT_SUCCESS := by
  unfold runStructureTensorWithGeneralizedRieszTest
  simp only [hlevels, itk.ForwardPyramid, modifiedWavelets, modifiedWaveletsFrom,
    List.length_singleton, Nat.sub_self, if_true]

/-- Claim C12, amended: for every otherwise valid invocation whose rieszOrder
argument parses to 0 and whose levels and bands give at least one band-pass
output (`levels * bands >= 1`), the run does not finish with an exit code:
the exception of `SetOrder(0)` leaves the run at the first band, and the entry
point with it. -/
theorem C12_order_zero_with_bands (stages : Nat → WaveletFunction → PipelineStages Grid)
    (argv : List String) (h8 : 8 ≤ argv.length) (h9 : argv.length ≤ 9)
    (hflag : argv.getD 7 "" = "Apply" ∨ argv.getD 7 "" = "NoApply")
    (hdim : selectedDimension argv = 2 ∨ selectedDimension argv = 3)
    (wv : WaveletFunction) (hname : argv.getD 5 "" = wv.name)
    (horder : toUnsigned (atoi (argv.getD 6 "")) = 0)
    (hbands : 1 ≤ toUnsigned (atoi (argv.getD 3 "")) * toUnsigned (atoi (argv.getD 4 ""))) :
    itkStructureTensorWithGeneralizedRieszTest
        (runStructureTensorWithGeneralizedRieszTest stages) argv =
      Except.error "Error: inputOrder = 0. It has to be greater than 0." ∧
    itkStructureTensorWithGeneralizedRieszTest
        (runStructureTensorWithGeneralizedRieszTest stages) argv ≠ Except.ok 0 := by
  have h := itkStructureTensorWithGeneralizedRieszTest_dispatch
    (runStructureTensorWithGeneralizedRieszTest stages) argv h8 h9 hflag hdim wv hname
  rw [runStructureTensorWithGeneralizedRieszTest_order_zero stages _ horder hbands] at h
  rw [h]
  exact ⟨rfl, fun hc => Except.noConfusion hc⟩

end StructureTensorRun

/-- Claim C12, counterexample: with levels 0 (and 2 bands, Shannon wavelet,
dimension 2) the rieszOrder argument `0` parses to 0 and the run finishes with
exit code 0, whatever the outside stages are: the forward pyramid has the
low-pass output only, and the loop never builds a Riesz filter bank. -/
theorem C12_order_zero_no_levels_exits_zero :
    toUnsigned (atoi "0") = 0 ∧ EXIT_SUCCESS = 0 ∧
    ∀ stages : Nat → WaveletFunction → PipelineStages Nat,
      itkStructureTensorWithGeneralizedRieszTest
        (runStructureTensorWithGeneralizedRieszTest stages)
        ["itkStructureTensorWithGeneralizedRieszTest", "in.nrrd", "out.nrrd", "0", "2",
          "Shannon", "0", "Apply", "2"] = Except.ok EXIT_SUCCESS :=
  ⟨by decide, rfl, fun _ => rfl⟩

/-- Claim C12, amended, at levels 2, bands 2, order 0 in dimension 2, with
numbers as images. -/
theorem C12_order_zero_with_bands_witness :
    itkStructureTensorWithGeneralizedRieszTest
        (runStructureTensorWithGeneralizedRieszTest (fun _ _ =>
          (⟨fun _ => 1, fun level k g => 100 * (level + 1) + 10 * (k + 1) + g,
            fun _ g => g + 1, fun g => 2 * g, ⟨0, ⟨0⟩, 0, [], 0, 0⟩,
            fun fb g => g + 1000 * fb.m_NumberOfRequiredOutputs,
            fun _ _ _ ms => ms.sum⟩ : PipelineStages Nat)))
        ["itkStructureTensorWithGeneralizedRieszTest", "in.nrrd", "out.nrrd", "2", "2",
          "Shannon", "0", "Apply", "2"] =
      Except.error "Error: inputOrder = 0. It has to be greater than 0." :=
  (C12_order_zero_with_bands _
    ["itkStructureTensorWithGeneralizedRieszTest", "in.nrrd", "out.nrrd", "2", "2",
      "Shannon", "0", "Apply", "2"] (by decide) (by decide) (Or.inl (by decide))
    (Or.inl (by decide)) WaveletFunction.Shannon (by decide) (by decide) (by decide)).1

namespace itk

/-! ## The structure tensor -/

section StructureTensor

variable {K : Type} [LinearOrderedField K] {Pixel : Type}

theorem StructureTensor_cons (inputs : List (Pixel → K)) (gq : K × Pixel)
    (window : List (K × Pixel)) (i j : Nat) :
    StructureTensor inputs (gq :: window) i j =
      gq.1 * outerProduct (componentVector inputs gq.2) i j +
        StructureTensor inputs window i j := by
  simp [StructureTensor]

theorem quadraticForm_add (A B : Nat → Nat → K) (M : Nat) (x : Nat → K) :
    quadraticForm (fun i j => A i j + B i j) M x =
      quadraticForm A M x + quadraticForm B M x := by
  simp only [quadraticForm, ← Finset.sum_add_distrib]
  refine Finset.sum_congr rfl fun i _ => Finset.sum_congr rfl fun j _ => ?_
  ring

/-- The quadratic form of a weighted outer product is the weight times a square. -/
theorem quadraticForm_outerProduct (g : K) (v : List K) (M : Nat) (x : Nat → K) :
    quadraticForm (fun i j => g * outerProduct v i j) M x =
      g * (∑ i ∈ Finset.range M, x i * v.getD i 0) ^ 2 := by
  simp only [quadraticForm, outerProduct]
  rw [pow_two, Finset.sum_mul_sum, Finset.mul_sum]
  refine Finset.sum_congr rfl fun i _ => ?_
  rw [Finset.mul_sum]
  refine Finset.sum_congr rfl fun j _ => ?_
  ring

theorem quadraticForm_StructureTensor_nonneg (inputs : List (Pixel → K)) (M : Nat)
    (x : Nat → K) : ∀ window : List (K × Pixel), (∀ gq ∈ window, 0 ≤ gq.1) →
      0 ≤ quadraticForm (StructureTensor inputs window) M x := by
  intro window
  induction window with
  | nil =>
    intro _
    simp [quadraticForm, StructureTensor]
  | cons gq window ih =>
    intro hw
    have h1 : StructureTensor inputs (gq :: window) =
        fun i j => gq.1 * outerProduct (componentVector inputs gq.2) i j +
          StructureTensor inputs window i j := by
      funext i j
      exact StructureTensor_cons inputs gq window i j
    rw [h1, quadraticForm_add, quadraticForm_outerProduct]
    have h2 : 0 ≤ gq.1 := hw gq (List.mem_cons_self _ _)
    have h3 := ih fun q hq => hw q (List.mem_cons_of_mem _ hq)
    have h4 : 0 ≤ gq.1 *
        (∑ i ∈ Finset.range M, x i * (componentVector inputs gq.2).getD i 0) ^ 2 :=
      mul_nonneg h2 (sq_nonneg _)
    linarith

/-- Claim C13: for every ordered set of real-valued component images (in
particular every non-empty one) and every pixel, the structure tensor, the sum
of the outer products of the component vectors over the window of the pixel
with non-negative averaging weights (without averaging: the pixel itself with
weight 1), is a symmetric and positive semi-definite matrix. -/
theorem C13_structure_tensor_symmetric_psd (inputs : List (Pixel → K))
    (window : List (K × Pixel)) (hweights : ∀ gq ∈ window, 0 ≤ gq.1) :
    (∀ i j, StructureTensor inputs window i j = StructureTensor inputs window j i) ∧
    (∀ x : Nat → K, 0 ≤ quadraticForm (StructureTensor inputs window) inputs.length x) ∧
    (∀ p : Pixel,
      (∀ i j, StructureTensor inputs [(1, p)] i j = StructureTensor inputs [(1, p)] j i) ∧
      ∀ x : Nat → K, 0 ≤ quadraticForm (StructureTensor inputs [(1, p)]) inputs.length x) := by
  have hsymm : ∀ (w : List (K × Pixel)) (i j : Nat),
      StructureTensor inputs w i j = StructureTensor inputs w j i := by
    intro w i j
    simp only [StructureTensor, outerProduct]
    congr 1
    apply List.map_congr_left
    intro gq _
    ring
  refine ⟨hsymm window, fun x => quadraticForm_StructureTensor_nonneg inputs _ x window hweights,
    fun p => ⟨hsymm _, fun x => quadraticForm_StructureTensor_nonneg inputs _ x _ ?_⟩⟩
  intro gq hgq
  rw [List.mem_singleton] at hgq
  rw [hgq]
  exact zero_le_one

/-- Claim C13 over the rationals: two component images on a line of pixels, a
window of two pixels with weights 1/2, and the vector (1, -1). -/
theorem C13_structure_tensor_symmetric_psd_witness :
    StructureTensor [fun p : ℚ => p, fun p : ℚ => 2 * p + 1] [(1 / 2, 0), (1 / 2, 1)] 0 1 =
      StructureTensor [fun p : ℚ => p, fun p : ℚ => 2 * p + 1] [(1 / 2, 0), (1 / 2, 1)] 1 0 ∧
    0 ≤ quadraticForm
      (StructureTensor [fun p : ℚ => p, fun p : ℚ => 2 * p + 1] [(1 / 2, 0), (1 / 2, 1)])
      [fun p : ℚ => p, fun p : ℚ => 2 * p + 1].length (fun i => if i = 0 then 1 else -1) :=
  ⟨(C13_structure_tensor_symmetric_psd [fun p : ℚ => p, fun p : ℚ => 2 * p + 1]
      [(1 / 2, 0), (1 / 2, 1)] (by
        intro gq hgq
        simp only [List.mem_cons, List.mem_singleton, List.not_mem_nil, or_false] at hgq
        rcases hgq with h | h <;> rw [h] <;> norm_num)).1 0 1,
    (C13_structure_tensor_symmetric_psd [fun p : ℚ => p, fun p : ℚ => 2 * p + 1]
      [(1 / 2, 0), (1 / 2, 1)] (by
        intro gq hgq
        simp only [List.mem_cons, List.mem_singleton, List.not_mem_nil, or_false] at hgq
        rcases hgq with h | h <;> rw [h] <;> norm_num)).2.1 _⟩

end StructureTensor

/-! ## Repeated calls of `SetOrder` and the evaluator -/

namespace RieszFrequencyFilterBankGenerator

theorem SetOrder_order (numComponents : Nat → Nat) (g : RieszFrequencyFilterBankGenerator)
    (n : Nat) (hn : 1 ≤ n) : (SetOrder numComponents g n).2.m_Order = n := by
  by_cases he : n = g.m_Order
  · rw [SetOrder_same numComponents g n hn he]
    exact he.symm
  · exact (SetOrder_changed numComponents g n hn he).2.1

/-- Claim C14: `SetOrder` is idempotent.  For every generator state and every
`n >= 1`, a call `SetOrder(n)` when the stored order is already `n` returns and
leaves the whole state as it is (order, evaluator, number of outputs, output
objects, modification time), so that `SetOrder(n); SetOrder(n)` leaves the
same state as a single `SetOrder(n)`. -/
theorem C14_SetOrder_idempotent (numComponents : Nat → Nat)
    (g : RieszFrequencyFilterBankGenerator) (n : Nat) (hn : 1 ≤ n) :
    (g.m_Order = n → SetOrder numComponents g n = (Except.ok (), g)) ∧
    SetOrder numComponents (SetOrder numComponents g n).2 n =
      (Except.ok (), (SetOrder numComponents g n).2) ∧
    (SetOrder numComponents (SetOrder numComponents g n).2 n).2 =
      (SetOrder numComponents g n).2 := by
  have h2 : SetOrder numComponents (SetOrder numComponents g n).2 n =
      (Except.ok (), (SetOrder numComponents g n).2) :=
    SetOrder_same numComponents _ n hn (SetOrder_order numComponents g n hn).symm
  exact ⟨fun h => SetOrder_same numComponents g n hn h.symm, h2, by rw [h2]⟩

/-- Claim C14 at a three-dimensional generator of order 1: the order 2 is set
twice. -/
theorem C14_SetOrder_idempotent_witness :
    1 ≤ 2 ∧
    (SetOrder (RieszFrequencyFunction.ComputeNumberOfComponents 3)
      (SetOrder (RieszFrequencyFunction.ComputeNumberOfComponents 3)
        ⟨1, ⟨1⟩, 3, [some 0, some 1, some 2], 3, 7⟩ 2).2 2).2 =
      ⟨2, ⟨2⟩, 6, [some 3, some 4, some 5, some 6, some 7, some 8], 9, 15⟩ :=
  ⟨by decide, ((C14_SetOrder_idempotent (RieszFrequencyFunction.ComputeNumberOfComponents 3)
    ⟨1, ⟨1⟩, 3, [some 0, some 1, some 2], 3, 7⟩ 2 (by decide)).2.2).trans (by decide)⟩

end RieszFrequencyFilterBankGenerator

/-- Claim C15, counterexample: from every state of the generator the public
operations `SetOrder(3)`, `SetOrder(2)`, `GetModifiableEvaluator()->SetOrder(3)`
lead to a state in which `SetOrder(2)` returns with the stored order 2 and the
evaluator's order 3; the same at a three-dimensional generator of order 1. -/
theorem C15_evaluator_order_not_restored :
    (∀ (numComponents : Nat → Nat) (g : RieszFrequencyFilterBankGenerator),
      (RieszFrequencyFilterBankGenerator.SetOrder numComponents
        (applyOperations numComponents g
          [GeneratorOperation.SetOrder 3, GeneratorOperation.SetOrder 2,
            GeneratorOperation.EvaluatorSetOrder 3]) 2).1 = Except.ok () ∧
      (RieszFrequencyFilterBankGenerator.SetOrder numComponents
        (applyOperations numComponents g
          [GeneratorOperation.SetOrder 3, GeneratorOperation.SetOrder 2,
            GeneratorOperation.EvaluatorSetOrder 3]) 2).2.m_Order = 2 ∧
      (RieszFrequencyFilterBankGenerator.SetOrder numComponents
        (applyOperations numComponents g
          [GeneratorOperation.SetOrder 3, GeneratorOperation.SetOrder 2,
            GeneratorOperation.EvaluatorSetOrder 3]) 2).2.m_Evaluator.m_Order = 3) ∧
    (RieszFrequencyFilterBankGenerator.SetOrder
      (RieszFrequencyFunction.ComputeNumberOfComponents 3)
      (applyOperations (RieszFrequencyFunction.ComputeNumberOfComponents 3)
        ⟨1, ⟨1⟩, 3, [some 0, some 1, some 2], 3, 7⟩
        [GeneratorOperation.SetOrder 3, GeneratorOperation.SetOrder 2,
          GeneratorOperation.EvaluatorSetOrder 3]) 2).2.m_Evaluator.m_Order ≠ 2 := by
  refine ⟨?_, by decide⟩
  intro numComponents g
  have h2 : (RieszFrequencyFilterBankGenerator.SetOrder numComponents
      (RieszFrequencyFilterBankGenerator.SetOrder numComponents g 3).2 2).2.m_Order = 2 :=
    RieszFrequencyFilterBankGenerator.SetOrder_order numComponents _ 2 (by decide)
  have hs := RieszFrequencyFilterBankGenerator.SetOrder_same numComponents
    (applyOperations numComponents g
      [GeneratorOperation.SetOrder 3, GeneratorOperation.SetOrder 2,
        GeneratorOperation.EvaluatorSetOrder 3]) 2 (by decide) h2.symm
  rw [hs]
  exact ⟨rfl, h2, rfl⟩

theorem Consistent_SetOrder (numComponents : Nat → Nat)
    (g : RieszFrequencyFilterBankGenerator) (n : Nat) (h : Consistent numComponents g) :
    Consistent numComponents (RieszFrequencyFilterBankGenerator.SetOrder numComponents g n).2 := by
  rcases Nat.eq_zero_or_pos n with h0 | hpos
  · subst h0
    rw [RieszFrequencyFilterBankGenerator.SetOrder_zero]
    exact h
  · by_cases he : n = g.m_Order
    · rw [RieszFrequencyFilterBankGenerator.SetOrder_same numComponents g n hpos he]
      exact h
    · obtain ⟨_, h2, h3, h4, _⟩ :=
        RieszFrequencyFilterBankGenerator.SetOrder_changed numComponents g n hpos he
      exact ⟨by rw [h3, h2], by rw [h4, h2]⟩

/-- Calls of `SetOrder` alone keep a consistent state consistent. -/
theorem Consistent_applyOperations (numComponents : Nat → Nat) :
    ∀ (ops : List GeneratorOperation) (g : RieszFrequencyFilterBankGenerator),
      Consistent numComponents g →
      (∀ op ∈ ops, ∃ k, op = GeneratorOperation.SetOrder k) →
      Consistent numComponents (applyOperations numComponents g ops) := by
  intro ops
  induction ops with
  | nil => intro g h _; exact h
  | cons op ops ih =>
    intro g h hall
    obtain ⟨k, hk⟩ := hall op (List.mem_cons_self _ _)
    subst hk
    simp only [applyOperations, List.foldl_cons, GeneratorOperation.apply]
    exact ih _ (Consistent_SetOrder numComponents g k h)
      (fun o ho => hall o (List.mem_cons_of_mem _ ho))

/-- Every public operation keeps the number of required outputs in line with
the stored order. -/
theorem count_apply (numComponents : Nat → Nat) (g : RieszFrequencyFilterBankGenerator)
    (op : GeneratorOperation)
    (h : g.m_NumberOfRequiredOutputs = numComponents g.m_Order) :
    (op.apply numComponents g).m_NumberOfRequiredOutputs =
      numComponents (op.apply numComponents g).m_Order := by
  cases op with
  | SetOrder n =>
    simp only [GeneratorOperation.apply]
    rcases Nat.eq_zero_or_pos n with h0 | hpos
    · subst h0
      rw [RieszFrequencyFilterBankGenerator.SetOrder_zero]
      exact h
    · by_cases he : n = g.m_Order
      · rw [RieszFrequencyFilterBankGenerator.SetOrder_same numComponents g n hpos he]
        exact h
      · obtain ⟨_, h2, _, h4, _⟩ :=
          RieszFrequencyFilterBankGenerator.SetOrder_changed numComponents g n hpos he
        rw [h4, h2]
  | EvaluatorSetOrder k => exact h

theorem count_applyOperations (numComponents : Nat → Nat) :
    ∀ (ops : List GeneratorOperation) (g : RieszFrequencyFilterBankGenerator),
      g.m_NumberOfRequiredOutputs = numComponents g.m_Order →
      (applyOperations numComponents g ops).m_NumberOfRequiredOutputs =
        numComponents (applyOperations numComponents g ops).m_Order := by
  intro ops
  induction ops with
  | nil => intro g h; exact h
  | cons op ops ih =>
    intro g h
    simp only [applyOperations, List.foldl_cons]
    exact ih _ (count_apply numComponents g op h)

/-- Claim C15, amended: in every state reachable through the public operations
(`SetOrder`, and changing the order of the evaluator obtained from
`GetModifiableEvaluator`) from a state whose number of required outputs is
that of its stored order, after any `SetOrder(n)` with `n >= 1` returns, the
stored order is `n` and the number of required outputs equals
`ComputeNumberOfComponents(n)`; the evaluator's order equals `n` exactly when
the call changed the stored order or the evaluator's order was `n` already,
so in particular whenever only `SetOrder` calls were made from a state in
which the evaluator's order agreed with the stored order. -/
theorem C15_consistency_after_SetOrder (numComponents : Nat → Nat)
    (g : RieszFrequencyFilterBankGenerator) (ops : List GeneratorOperation) (n : Nat)
    (hn : 1 ≤ n) :
    (RieszFrequencyFilterBankGenerator.SetOrder numComponents
      (applyOperations numComponents g ops) n).1 = Except.ok () ∧
    (RieszFrequencyFilterBankGenerator.SetOrder numComponents
      (applyOperations numComponents g ops) n).2.m_Order = n ∧
    ((g.m_NumberOfRequiredOutputs = numComponents g.m_Order ∨
        n ≠ (applyOperations numComponents g ops).m_Order) →
      (RieszFrequencyFilterBankGenerator.SetOrder numComponents
        (applyOperations numComponents g ops) n).2.m_NumberOfRequiredOutputs =
        numComponents n) ∧
    ((RieszFrequencyFilterBankGenerator.SetOrder numComponents
        (applyOperations numComponents g ops) n).2.m_Evaluator.m_Order = n ↔
      (n ≠ (applyOperations numComponents g ops).m_Order ∨
        (applyOperations numComponents g ops).m_Evaluator.m_Order = n)) ∧
    (Consistent numComponents g →
      (∀ op ∈ ops, ∃ k, op = GeneratorOperation.SetOrder k) →
      (RieszFrequencyFilterBankGenerator.SetOrder numComponents
        (applyOperations numComponents g ops) n).2.m_Evaluator.m_Order = n) := by
  have hord := RieszFrequencyFilterBankGenerator.SetOrder_order numComponents
    (applyOperations numComponents g ops) n hn
  have hev : (RieszFrequencyFilterBankGenerator.SetOrder numComponents
        (applyOperations numComponents g ops) n).2.m_Evaluator.m_Order = n ↔
      (n ≠ (applyOperations numComponents g ops).m_Order ∨
        (applyOperations numComponents g ops).m_Evaluator.m_Order = n) := by
    by_cases he : n = (applyOperations numComponents g ops).m_Order
    · rw [RieszFrequencyFilterBankGenerator.SetOrder_same numComponents _ n hn he]
      constructor
      · exact fun h => Or.inr h
      · rintro (h | h)
        · exact absurd he h
        · exact h
    · exact ⟨fun _ => Or.inl he, fun _ =>
        (RieszFrequencyFilterBankGenerator.SetOrder_changed numComponents _ n hn he).2.2.1⟩
  refine ⟨?_, hord, ?_, hev, ?_⟩
  · by_cases he : n = (applyOperations numComponents g ops).m_Order
    · rw [RieszFrequencyFilterBankGenerator.SetOrder_same numComponents _ n hn he]
    · exact (RieszFrequencyFilterBankGenerator.SetOrder_changed numComponents _ n hn he).1
  · intro h
    by_cases he : n = (applyOperations numComponents g ops).m_Order
    · rcases h with hc | hne
      · rw [RieszFrequencyFilterBankGenerator.SetOrder_same numComponents _ n hn he,
          count_applyOperations numComponents ops g hc, ← he]
      · exact absurd he hne
    · exact (RieszFrequencyFilterBankGenerator.SetOrder_changed numComponents _ n hn
        he).2.2.2.1
  · intro hc hall
    have h1 := Consistent_SetOrder numComponents _ n
      (Consistent_applyOperations numComponents ops g hc hall)
    unfold Consistent at h1
    rw [hord] at h1
    exact h1.1

/-- Claim C15, amended, at a three-dimensional generator of order 1: after
`SetOrder(3)`, `SetOrder(2)` and a change of the evaluator's order to 3, a call
`SetOrder(2)` leaves the stored order 2 and the six required outputs of
order 2. -/
theorem C15_consistency_after_SetOrder_witness :
    1 ≤ 2 ∧
    (3 : Nat) = RieszFrequencyFunction.ComputeNumberOfComponents 3 1 ∧
    (RieszFrequencyFilterBankGenerator.SetOrder
      (RieszFrequencyFunction.ComputeNumberOfComponents 3)
      (applyOperations (RieszFrequencyFunction.ComputeNumberOfComponents 3)
        ⟨1, ⟨1⟩, 3, [some 0, some 1, some 2], 3, 7⟩
        [GeneratorOperation.SetOrder 3, GeneratorOperation.SetOrder 2,
          GeneratorOperation.EvaluatorSetOrder 3]) 2).2.m_NumberOfRequiredOutputs =
      RieszFrequencyFunction.ComputeNumberOfComponents 3 2 :=
  ⟨by decide, by decide,
    (C15_consistency_after_SetOrder (RieszFrequencyFunction.ComputeNumberOfComponents 3)
      ⟨1, ⟨1⟩, 3, [some 0, some 1, some 2], 3, 7⟩
      [GeneratorOperation.SetOrder 3, GeneratorOperation.SetOrder 2,
        GeneratorOperation.EvaluatorSetOrder 3] 2 (by decide)).2.2.1 (Or.inl (by decide))⟩

end itk

namespace itk

/-! ## The energy of the filters of a level -/

namespace SimoncelliIsotropicWavelet

variable {K : Type} [LinearOrderedField K]

/-- Outside the support `]π/4, π]` the kernel is zero. -/
theorem kernel_zero_outside (pi : K) (cos : K → K) (log2 : K → Option K) (h : K → K)
    (hh : ∀ w, EvaluateMagnitude pi cos log2 w = some (h w)) (w : K)
    (hw : ¬ (pi / 4 < w ∧ w ≤ pi)) : h w = 0 := by
  have h1 := hh w
  simp only [EvaluateMagnitude, hw, if_false, Option.some.injEq] at h1
  exact h1.symm

/-- On the support the kernel is the cosine of the class documentation. -/
theorem kernel_on_support (pi : K) (cos : K → K) (log2 : K → Option K) (hpi : 0 < pi)
    (h : K → K) (hh : ∀ w, EvaluateMagnitude pi cos log2 w = some (h w)) (w : K)
    (hw : pi / 4 < w ∧ w ≤ pi) :
    ∃ l, log2 (2 * w / pi) = some l ∧ h w = cos (pi / 2 * l) := by
  have h1 := hh w
  simp only [EvaluateMagnitude, hw, and_self, if_true, checkedDiv, ne_of_gt hpi, if_false] at h1
  cases hl : log2 (2 * w / pi) with
  | none => rw [hl] at h1; exact Option.noConfusion h1
  | some l =>
    rw [hl] at h1
    simp only [Option.some.injEq] at h1
    exact ⟨l, rfl, h1.symm⟩

theorem kernel_sq_le_one (pi : K) (cos : K → K) (log2 : K → Option K) (hpi : 0 < pi)
    (hcos : ∀ x : K, cos x ^ 2 + cos (x + pi / 2) ^ 2 = 1)
    (h : K → K) (hh : ∀ w, EvaluateMagnitude pi cos log2 w = some (h w)) (w : K) :
    h w ^ 2 ≤ 1 := by
  by_cases hw : pi / 4 < w ∧ w ≤ pi
  · obtain ⟨l, _, hv⟩ := kernel_on_support pi cos log2 hpi h hh w hw
    rw [hv]
    have := hcos (pi / 2 * l)
    have h2 : 0 ≤ cos (pi / 2 * l + pi / 2) ^ 2 := sq_nonneg _
    linarith
  · rw [kernel_zero_outside pi cos log2 h hh w hw]
    norm_num

/-- The identity of two neighbouring scales: `h(w)² + h(2w)² = 1` on `]π/4, π/2]`. -/
theorem kernel_two_scales (pi : K) (cos : K → K) (log2 : K → Option K) (hpi : 0 < pi)
    (hlog2 : ∀ x l : K, 0 < x → log2 x = some l → log2 (2 * x) = some (l + 1))
    (hcos : ∀ x : K, cos x ^ 2 + cos (x + pi / 2) ^ 2 = 1)
    (h : K → K) (hh : ∀ w, EvaluateMagnitude pi cos log2 w = some (h w)) (w : K)
    (h1 : pi / 4 < w) (h2 : w ≤ pi / 2) : h w ^ 2 + h (2 * w) ^ 2 = 1 := by
  have hwpos : 0 < w := lt_trans (by positivity) h1
  obtain ⟨l, hl, hv⟩ := kernel_on_support pi cos log2 hpi h hh w ⟨h1, by linarith⟩
  obtain ⟨l', hl', hv'⟩ := kernel_on_support pi cos log2 hpi h hh (2 * w)
    ⟨by linarith, by linarith⟩
  have hr : 0 < 2 * w / pi := by positivity
  have h3 := hlog2 _ l hr hl
  have h4 : 2 * (2 * w / pi) = 2 * (2 * w) / pi := by ring
  rw [h4, hl'] at h3
  simp only [Option.some.injEq] at h3
  rw [hv, hv', h3]
  have h5 : pi / 2 * (l + 1) = pi / 2 * l + pi / 2 := by ring
  rw [h5]
  exact hcos _

end SimoncelliIsotropicWavelet

namespace WaveletFrequencyFilterBankGenerator

variable {K : Type} [LinearOrderedField K]

/-- The squared band-pass magnitudes of a kernel that is zero outside
`]π/4, π]`, at most 1, and satisfies the two-scale identity: bands `0 .. n-1`
are all zero when `2^n w ≤ π/2`, and together with the next band they stay
within 1. -/
theorem bandPass_energy_le (pi : K) (hpi : 0 < pi) (h : K → K)
    (hzero : ∀ w, ¬ (pi / 4 < w ∧ w ≤ pi) → h w = 0)
    (hle : ∀ w, h w ^ 2 ≤ 1)
    (htwo : ∀ w, pi / 4 < w → w ≤ pi / 2 → h w ^ 2 + h (2 * w) ^ 2 = 1) (w : K) :
    ∀ n : Nat,
      (2 ^ n * w ≤ pi / 2 → ((List.range n).map fun k => bandPassFilter h k w ^ 2).sum = 0) ∧
      ((List.range n).map fun k => bandPassFilter h k w ^ 2).sum + h (2 ^ n * w) ^ 2 ≤ 1 := by
  intro n
  induction n with
  | zero =>
    refine ⟨fun _ => by simp, ?_⟩
    simp only [List.range_zero, List.map_nil, List.sum_nil, zero_add]
    exact hle _
  | succ n ih =>
    obtain ⟨ih1, ih2⟩ := ih
    have hsum : ((List.range (n + 1)).map fun k => bandPassFilter h k w ^ 2).sum =
        ((List.range n).map fun k => bandPassFilter h k w ^ 2).sum + h (2 ^ n * w) ^ 2 := by
      rw [List.range_succ, List.map_append, List.sum_append]
      simp [bandPassFilter]
    have hx : (2 : K) ^ (n + 1) * w = 2 * (2 ^ n * w) := by ring
    rw [hsum, hx]
    refine ⟨?_, ?_⟩
    · intro hsmall
      have h1 : 2 ^ n * w ≤ pi / 4 := by linarith
      have h2 := hzero (2 ^ n * w) (fun hc => absurd hc.1 (not_lt.mpr h1))
      have h3 := ih1 (by linarith)
      rw [h2, h3]
      norm_num
    · by_cases hA : 2 ^ n * w ≤ pi / 4
      · have h2 := hzero (2 ^ n * w) (fun hc => absurd hc.1 (not_lt.mpr hA))
        have h3 := ih1 (by linarith)
        rw [h2, h3]
        have := hle (2 * (2 ^ n * w))
        linarith
      · by_cases hB : 2 ^ n * w ≤ pi / 2
        · have h3 := ih1 hB
          rw [h3, zero_add]
          exact le_of_eq (htwo _ (not_le.mp hA) hB)
        · have h2 := hzero (2 * (2 ^ n * w)) (fun hc => by
            have := hc.2
            have := not_le.mp hB
            linarith)
          rw [h2]
          have : (0 : K) ^ 2 = 0 := by norm_num
          rw [this, add_zero]
          exact ih2

/-- The energy of the filters of a level is 1 as soon as the band-pass energy
is within 1. -/
theorem filterBank_energy (sqrt : K → K) (hsqrt : ∀ x : K, 0 ≤ x → sqrt x * sqrt x = x)
    (h : K → K) (bands : Nat) (w : K)
    (hle : ((List.range bands).map fun k => bandPassFilter h k w ^ 2).sum ≤ 1) :
    ((filterBank sqrt h bands w).map fun v => v ^ 2).sum = 1 := by
  simp only [filterBank, List.map_append, List.map_map, List.sum_append, List.map_cons,
    List.map_nil, List.sum_cons, List.sum_nil, add_zero, lowPassFilter]
  have h1 : ((List.range bands).map ((fun v => v ^ 2) ∘ fun k => bandPassFilter h k w)).sum =
      ((List.range bands).map fun k => bandPassFilter h k w ^ 2).sum := rfl
  rw [h1, pow_two (sqrt _), hsqrt _ (by linarith)]
  ring

/-- Claim C7: for the Simoncelli kernel `h`, `h(w)² + h(2w)² = 1` for every `w`
in `]π/4, π/2]`, and for every band count `K >= 1` and every frequency (in
particular every one of the representable range) the squared magnitudes of
the `K` band-pass filters and the one low-pass filter of a level add up to 1;
the band-pass magnitudes alone stay within 1, which is what the two-scale
identity gives. -/
theorem C7_level_energy (pi : K) (cos : K → K) (log2 : K → Option K) (sqrt : K → K)
    (hpi : 0 < pi)
    (hlog2 : ∀ x l : K, 0 < x → log2 x = some l → log2 (2 * x) = some (l + 1))
    (hcos : ∀ x : K, cos x ^ 2 + cos (x + pi / 2) ^ 2 = 1)
    (hsqrt : ∀ x : K, 0 ≤ x → sqrt x * sqrt x = x)
    (h : K → K)
    (hh : ∀ w, SimoncelliIsotropicWavelet.EvaluateMagnitude pi cos log2 w = some (h w)) :
    (∀ w, pi / 4 < w → w ≤ pi / 2 → h w ^ 2 + h (2 * w) ^ 2 = 1) ∧
    (∀ (bands : Nat) (w : K), 1 ≤ bands →
      (filterBank sqrt h bands w).length = bands + 1 ∧
      ((List.range bands).map fun k => bandPassFilter h k w ^ 2).sum ≤ 1 ∧
      ((filterBank sqrt h bands w).map fun v => v ^ 2).sum = 1) := by
  have htwo := SimoncelliIsotropicWavelet.kernel_two_scales pi cos log2 hpi hlog2 hcos h hh
  refine ⟨htwo, ?_⟩
  intro bands w _
  have hb := (bandPass_energy_le pi hpi h
    (SimoncelliIsotropicWavelet.kernel_zero_outside pi cos log2 h hh)
    (SimoncelliIsotropicWavelet.kernel_sq_le_one pi cos log2 hpi hcos h hh) htwo w bands).2
  have hle : ((List.range bands).map fun k => bandPassFilter h k w ^ 2).sum ≤ 1 := by
    have := sq_nonneg (h (2 ^ bands * w))
    linarith
  exact ⟨by simp [filterBank], hle, filterBank_energy sqrt hsqrt h bands w hle⟩

end WaveletFrequencyFilterBankGenerator

end itk

/-- Claim C7 over the real numbers, with the real cosine, logarithm and square
root: two band-pass filters and the low-pass filter at the frequency `π/3`. -/
theorem C7_level_energy_witness :
    ((itk.WaveletFrequencyFilterBankGenerator.filterBank Real.sqrt
      (fun w : ℝ => if Real.pi / 4 < w ∧ w ≤ Real.pi then
        Real.cos (Real.pi / 2 * Real.logb 2 (2 * w / Real.pi)) else 0)
      2 (Real.pi / 3)).map fun v => v ^ 2).sum = 1 :=
  ((itk.WaveletFrequencyFilterBankGenerator.C7_level_energy Real.pi Real.cos
    (fun x : ℝ => if 0 < x then some (Real.logb 2 x) else none) Real.sqrt Real.pi_pos
    (by
      intro x l hx hl
      have h2x : (0 : ℝ) < 2 * x := by linarith
      simp only [hx, if_true, Option.some.injEq] at hl
      simp only [h2x, if_true, Option.some.injEq]
      rw [← hl, Real.logb_mul (by norm_num) (ne_of_gt hx), Real.logb_self_eq_one (by norm_num)]
      ring)
    (by
      intro x
      rw [Real.cos_add_pi_div_two, neg_sq]
      exact Real.cos_sq_add_sin_sq x)
    (fun _ hx => Real.mul_self_sqrt hx)
    (fun w : ℝ => if Real.pi / 4 < w ∧ w ≤ Real.pi then
      Real.cos (Real.pi / 2 * Real.logb 2 (2 * w / Real.pi)) else 0)
    (by
      intro w
      by_cases hw : Real.pi / 4 < w ∧ w ≤ Real.pi
      · have hwpos : 0 < w := lt_trans (by positivity) hw.1
        have hr : 0 < 2 * w / Real.pi := by positivity
        simp only [itk.SimoncelliIsotropicWavelet.EvaluateMagnitude, hw, and_self, if_true,
          itk.SimoncelliIsotropicWavelet.checkedDiv, ne_of_gt Real.pi_pos, if_false, hr]
      · simp only [itk.SimoncelliIsotropicWavelet.EvaluateMagnitude, hw, if_false])).2
    2 (Real.pi / 3) (by decide)).2.2
